import Mathlib

/-!
Verification development for the event-generation repository.

The definitions below are shallow embeddings of the TypeScript sources:
`AIAnalysisService` (src/docs/ai-integration.md, the full code listing of
src/services/aiService.ts), `RAGService` and `InMemoryVectorStore`
(src/services/ragService.ts).  JavaScript strings are modelled as `List Char`,
JavaScript numbers as `ℚ` (all arithmetic the claims touch is exact decimal),
JSON values as the inductive `JVal`, and thrown exceptions as `Option`/`none`.
-/

set_option maxHeartbeats 1000000
set_option linter.unusedVariables false

/-- JavaScript strings, modelled as lists of characters. -/
abbrev JStr := List Char

/-- Convert a Lean string literal to the `JStr` model. -/
def js (s : String) : JStr := s.data

/-- The backtick character (written by code to avoid a literal backtick). -/
def tickChar : Char := Char.ofNat 96

/-- The opening-brace character. -/
def lbrace : Char := Char.ofNat 123

/-- The closing-brace character. -/
def rbrace : Char := Char.ofNat 125

/-- Whitespace as matched by the JavaScript regex class `\s` and `trim`
(ASCII part; the sources only ever produce ASCII whitespace). -/
def isJsWs (c : Char) : Bool :=
  c = ' ' || c = '\t' || c = '\n' || c = '\r' || c = Char.ofNat 11 || c = Char.ofNat 12

/-- JSON insignificant whitespace (RFC 8259): space, tab, newline, return. -/
def isJsonWs (c : Char) : Bool :=
  c = ' ' || c = '\t' || c = '\n' || c = '\r'

/-- Decimal digit characters. -/
def isDigitCh (c : Char) : Bool := '0' ≤ c && c ≤ '9'

/-- Word characters, the JavaScript regex class `\w`. -/
def isWordCh (c : Char) : Bool :=
  ('a' ≤ c && c ≤ 'z') || ('A' ≤ c && c ≤ 'Z') || isDigitCh c || c = '_'

/-- Decimal digit character of a value below ten. -/
def digCh (n : Nat) : Char := (js "0123456789").getD (n % 10) '0'

/-- Decimal rendering worker; the fuel only bounds recursion depth and is
always supplied above the number of digits. -/
def natDigitsA : Nat → Nat → JStr
  | 0, _ => []
  | f + 1, n => if n < 10 then [digCh n] else natDigitsA f (n / 10) ++ [digCh (n % 10)]

/-- Decimal representation of a natural number (used for JavaScript template
strings such as `event_${index + 1}` and array indices). -/
def natDigits (n : Nat) : JStr := natDigitsA (n + 1) n

/-- Numeric value of a digit character. -/
def digVal (c : Char) : Nat := c.toNat - 48

/-- Read a decimal string back to a number (inverse of `natDigits`). -/
def digitsVal (s : JStr) : Nat := s.foldl (fun a c => 10 * a + digVal c) 0

theorem digitsVal_append (s : JStr) (c : Char) :
    digitsVal (s ++ [c]) = 10 * digitsVal s + digVal c := by
  simp [digitsVal]

theorem digVal_digCh (n : Nat) : digVal (digCh n) = n % 10 := by
  have h : n % 10 < 10 := Nat.mod_lt _ (by omega)
  unfold digVal digCh
  set m := n % 10 with hm
  interval_cases m <;> decide

theorem digitsVal_natDigitsA (f : Nat) :
    ∀ n, n < f → digitsVal (natDigitsA f n) = n := by
  induction f with
  | zero => intro n h; omega
  | succ f ih =>
      intro n h
      unfold natDigitsA
      by_cases h10 : n < 10
      · simp [h10, digitsVal, digVal_digCh, Nat.mod_eq_of_lt h10]
      · simp only [h10, if_false, digitsVal_append]
        rw [ih (n / 10) (by omega), digVal_digCh]
        omega

theorem digitsVal_natDigits (n : Nat) : digitsVal (natDigits n) = n :=
  digitsVal_natDigitsA (n + 1) n (by omega)

theorem natDigits_injective : Function.Injective natDigits := by
  intro a b h
  have := digitsVal_natDigits a
  rw [h, digitsVal_natDigits] at this
  omega

/-- JSON values as produced by `JSON.parse`, together with the JavaScript
`undefined` used for absent object members.  Object member lists are kept in
first-occurrence order with last-occurrence values, exactly as `JSON.parse`
builds them, so they never contain duplicate keys. -/
inductive JVal where
  | undef : JVal
  | null : JVal
  | bool : Bool → JVal
  | num : ℚ → JVal
  | str : JStr → JVal
  | arr : List JVal → JVal
  | obj : List (JStr × JVal) → JVal

/-- Assign to an object member: overwrite in place when the key exists,
append otherwise (JavaScript object assignment order semantics). -/
def setKey (fs : List (JStr × JVal)) (k : JStr) (v : JVal) : List (JStr × JVal) :=
  match fs with
  | [] => [(k, v)]
  | (k0, v0) :: rest =>
      if k0 = k then (k0, v) :: rest else (k0, v0) :: setKey rest k v

/-- Look a key up in an object member list. -/
def getKey (fs : List (JStr × JVal)) (k : JStr) : Option JVal :=
  match fs with
  | [] => none
  | (k0, v0) :: rest => if k0 = k then some v0 else getKey rest k

/-- Skip JSON whitespace. -/
def skipWs (s : JStr) : JStr := s.dropWhile isJsonWs

/-- Parse the digit run at the head of the input. -/
def takeDigits (s : JStr) : JStr × JStr := (s.takeWhile isDigitCh, s.dropWhile isDigitCh)

/-- Natural value of a digit run. -/
def digitsNat (d : JStr) : Nat := digitsVal d

/-- Parse a strict JSON number after the optional leading minus has been
removed: `int frac? exp?`, rejecting leading zeros.  Returns the magnitude
and the remaining input. -/
def parseNumBody (s : JStr) : Option (ℚ × JStr) :=
  let (intDigits, r1) := takeDigits s
  if intDigits = [] then none
  else if intDigits.length > 1 ∧ intDigits.headI = '0' then none
  else
    let ipart : ℚ := (digitsNat intDigits : ℚ)
    let (fpart, r2) :=
      match r1 with
      | '.' :: rest =>
          let (fd, r) := takeDigits rest
          if fd = [] then (none, r1)
          else (some ((digitsNat fd : ℚ) / ((10 : ℚ) ^ fd.length)), r)
      | _ => (some 0, r1)
    match fpart with
    | none => none
    | some f =>
        let mant := ipart + f
        match r2 with
        | c :: rest =>
            if c = 'e' ∨ c = 'E' then
              let (sgn, r3) :=
                match rest with
                | '+' :: r => ((1 : Int), r)
                | '-' :: r => ((-1 : Int), r)
                | _ => ((1 : Int), rest)
              let (ed, r4) := takeDigits r3
              if ed = [] then none
              else some (mant * (10 : ℚ) ^ (sgn * (digitsNat ed : Int)), r4)
            else some (mant, r2)
        | [] => some (mant, r2)

/-- Hexadecimal digit value. -/
def hexVal (c : Char) : Option Nat :=
  if '0' ≤ c ∧ c ≤ '9' then some (c.toNat - 48)
  else if 'a' ≤ c ∧ c ≤ 'f' then some (c.toNat - 87)
  else if 'A' ≤ c ∧ c ≤ 'F' then some (c.toNat - 55)
  else none

/-- Parse the body of a JSON string after the opening quote; strict about
control characters and escapes, as `JSON.parse` is. -/
def parseStrBody (fuel : Nat) (s : JStr) : Option (JStr × JStr) :=
  match fuel with
  | 0 => none
  | fuel + 1 =>
    match s with
    | [] => none
    | '"' :: rest => some ([], rest)
    | '\\' :: e :: rest =>
        match e with
        | '"' => (parseStrBody fuel rest).map (fun (t, r) => ('"' :: t, r))
        | '\\' => (parseStrBody fuel rest).map (fun (t, r) => ('\\' :: t, r))
        | '/' => (parseStrBody fuel rest).map (fun (t, r) => ('/' :: t, r))
        | 'b' => (parseStrBody fuel rest).map (fun (t, r) => (Char.ofNat 8 :: t, r))
        | 'f' => (parseStrBody fuel rest).map (fun (t, r) => (Char.ofNat 12 :: t, r))
        | 'n' => (parseStrBody fuel rest).map (fun (t, r) => ('\n' :: t, r))
        | 'r' => (parseStrBody fuel rest).map (fun (t, r) => ('\r' :: t, r))
        | 't' => (parseStrBody fuel rest).map (fun (t, r) => ('\t' :: t, r))
        | 'u' =>
            match rest with
            | a :: b :: c :: d :: rest2 =>
                match hexVal a, hexVal b, hexVal c, hexVal d with
                | some ha, some hb, some hc, some hd =>
                    (parseStrBody fuel rest2).map
                      (fun (t, r) => (Char.ofNat (((ha * 16 + hb) * 16 + hc) * 16 + hd) :: t, r))
                | _, _, _, _ => none
            | _ => none
        | _ => none
    | c :: rest =>
        if c.toNat < 32 then none
        else (parseStrBody fuel rest).map (fun (t, r) => (c :: t, r))

mutual

/-- Recursive-descent strict JSON value parser (the embedding of
`JSON.parse`); `fuel` bounds recursion depth and is always supplied large
enough to be irrelevant. -/
def parseVal (fuel : Nat) (s : JStr) : Option (JVal × JStr) :=
  match fuel with
  | 0 => none
  | fuel + 1 =>
    match s with
    | [] => none
    | c :: rest =>
      if c = lbrace then
        match skipWs rest with
        | c2 :: r2 =>
            if c2 = rbrace then some (.obj [], r2)
            else parseMembers fuel (c2 :: r2) []
        | [] => none
      else if c = '[' then
        match skipWs rest with
        | ']' :: r2 => some (.arr [], r2)
        | r2 => parseItems fuel r2 []
      else if c = '"' then
        (parseStrBody (s.length + 1) rest).map (fun (t, r) => (.str t, r))
      else if c = 't' then
        if rest.take 3 = ['r', 'u', 'e'] then some (.bool true, rest.drop 3) else none
      else if c = 'f' then
        if rest.take 4 = ['a', 'l', 's', 'e'] then some (.bool false, rest.drop 4) else none
      else if c = 'n' then
        if rest.take 3 = ['u', 'l', 'l'] then some (.null, rest.drop 3) else none
      else if c = '-' then
        (parseNumBody rest).map (fun (q, r) => (.num (-q), r))
      else if isDigitCh c then
        (parseNumBody s).map (fun (q, r) => (.num q, r))
      else none

/-- Parse the members of a JSON object (input positioned at the first key). -/
def parseMembers (fuel : Nat) (s : JStr) (acc : List (JStr × JVal)) :
    Option (JVal × JStr) :=
  match fuel with
  | 0 => none
  | fuel + 1 =>
    match s with
    | '"' :: rest =>
        match parseStrBody (s.length + 1) rest with
        | none => none
        | some (k, r1) =>
            match skipWs r1 with
            | ':' :: r2 =>
                match parseVal fuel (skipWs r2) with
                | none => none
                | some (v, r3) =>
                    let acc2 := setKey acc k v
                    match skipWs r3 with
                    | ',' :: r4 => parseMembers fuel (skipWs r4) acc2
                    | c :: r4 => if c = rbrace then some (.obj acc2, r4) else none
                    | [] => none
            | _ => none
    | _ => none

/-- Parse the items of a JSON array (input positioned at the first item). -/
def parseItems (fuel : Nat) (s : JStr) (acc : List JVal) : Option (JVal × JStr) :=
  match fuel with
  | 0 => none
  | fuel + 1 =>
    match parseVal fuel (skipWs s) with
    | none => none
    | some (v, r1) =>
        match skipWs r1 with
        | ',' :: r2 => parseItems fuel r2 (acc ++ [v])
        | ']' :: r2 => some (.arr (acc ++ [v]), r2)
        | _ => none

end

/-- The embedding of `JSON.parse`: `none` models a thrown `SyntaxError`. -/
def jsonParse (s : JStr) : Option JVal :=
  match parseVal (2 * s.length + 2) (skipWs s) with
  | none => none
  | some (v, rest) => if skipWs rest = [] then some v else none

/-- JavaScript truthiness of a value. -/
def truthy : JVal → Bool
  | .undef => false
  | .null => false
  | .bool b => b
  | .num q => q ≠ 0
  | .str s => s ≠ []
  | .arr _ => true
  | .obj _ => true

/-- `Array.isArray`. -/
def isArr : JVal → Bool
  | .arr _ => true
  | _ => false

/-- JavaScript member access `v.k`; `none` models the `TypeError` thrown when
reading a property of `null` or `undefined`, and a missing member yields
`undefined`.  The source only ever reads named (non-index) members, which do
not exist on the primitive and array values it can receive. -/
def getField : JVal → JStr → Option JVal
  | .null, _ => none
  | .undef, _ => none
  | .obj fs, k => some ((getKey fs k).getD .undef)
  | _, _ => some (.undef)

/-- JavaScript `typeof`, as a string. -/
def typeofStr : JVal → JStr
  | .undef => js "undefined"
  | .null => js "object"
  | .bool _ => js "boolean"
  | .num _ => js "number"
  | .str _ => js "string"
  | .arr _ => js "object"
  | .obj _ => js "object"

/-- `Object.entries` on a truthy value (the source guards every call with a
truthiness check, so `null`/`undefined` never reach it). -/
def entriesOf : JVal → List (JStr × JVal)
  | .obj fs => fs
  | .arr xs => xs.enum.map (fun p => (natDigits p.1, p.2))
  | .str s => s.enum.map (fun p => (natDigits p.1, .str [p.2]))
  | _ => []

/-- Decimal rendering of an integer. -/
def intDigits (i : Int) : JStr :=
  (if i < 0 then ['-'] else []) ++ natDigits i.natAbs

/-- String rendering of a JavaScript number.  Every number reaching string
coercion in the embedded flows is an exact decimal, which this renders the
way JavaScript renders the corresponding float. -/
def ratToStr (q : ℚ) : JStr :=
  let sign : JStr := if q < 0 then ['-'] else []
  let n := q.num.natAbs
  let d := q.den
  match (List.range 31).find? (fun k => decide (d ∣ 10 ^ k)) with
  | some k =>
      if k = 0 then sign ++ natDigits n
      else
        let scaled := n * (10 ^ k / d)
        let ip := scaled / 10 ^ k
        let fracRaw := natDigits (scaled % 10 ^ k)
        let frac := List.replicate (k - fracRaw.length) '0' ++ fracRaw
        sign ++ natDigits ip ++ '.' :: frac
  | none => sign ++ natDigits n ++ '/' :: natDigits d

mutual

/-- JavaScript string coercion of a value (template-literal interpolation). -/
def jsToStr : JVal → JStr
  | .undef => js "undefined"
  | .null => js "null"
  | .bool b => if b then js "true" else js "false"
  | .num q => ratToStr q
  | .str s => s
  | .arr xs => jsToStrList xs
  | .obj _ => js "[object Object]"

/-- Array string coercion: elements joined by commas, with `null` and
`undefined` elements rendered empty. -/
def jsToStrList : List JVal → JStr
  | [] => []
  | v :: rest =>
      (match v with
       | .null => []
       | .undef => []
       | w => jsToStr w) ++ (if rest.isEmpty then [] else ',' :: jsToStrList rest)

end

/-- `String.prototype.trim`. -/
def jsTrim (s : JStr) : JStr :=
  ((s.dropWhile isJsWs).reverse.dropWhile isJsWs).reverse

theorem lenDropWhileLe (p : Char → Bool) (l : List Char) :
    (l.dropWhile p).length ≤ l.length :=
  (List.dropWhile_sublist p).length_le

/-- Fence-removal worker; the fuel only bounds recursion depth, each step
consumes at least one character, and every wrapper call supplies the input
length. -/
def stripFenceJsonA : Nat → JStr → JStr
  | 0, s => s
  | f + 1, [] => []
  | f + 1, c :: cs =>
      if (js "\x60\x60\x60json").isPrefixOf (c :: cs) then
        stripFenceJsonA f (((c :: cs).drop 7).dropWhile isJsWs)
      else c :: stripFenceJsonA f cs

/-- The first global replacement of `parseAIResponse` (remove markdown code
fences): every occurrence of three backticks followed by `json` and a
whitespace run is deleted. -/
def stripFenceJson (s : JStr) : JStr := stripFenceJsonA s.length s

/-- Tick-removal worker (fuel as in `stripFenceJsonA`). -/
def stripTicksA : Nat → JStr → JStr
  | 0, s => s
  | f + 1, [] => []
  | f + 1, c :: cs =>
      if (js "\x60\x60\x60").isPrefixOf ((c :: cs).dropWhile isJsWs) then
        stripTicksA f (((c :: cs).dropWhile isJsWs).drop 3)
      else c :: stripTicksA f cs

/-- The global replacement `.replace(/\s*TICKS/g, "")` (second cleaning step;
`TICKS` is three backticks).  A match at a position is a whitespace run
followed directly by the three backticks. -/
def stripTicks (s : JStr) : JStr := stripTicksA s.length s

/-- The explanatory-text removal loop of `parseAIResponse`: of the candidate
starts `["TICKS", "{", "["]` only the brace iteration can act, so the net
effect is to slice the text from the first `{` when that occurs at a
positive index. -/
def sliceFromBrace (s : JStr) : JStr :=
  match s.findIdx? (· = lbrace) with
  | some i => if 0 < i then s.drop i else s
  | none => s

/-- Delimiter-counting scan of `parseAIResponse` method 1: starting on the
opening delimiter, report the index at which the count returns to zero. -/
def balEnd (op cl : Char) : JStr → Int → Nat → Option Nat
  | [], _, _ => none
  | x :: xs, cnt, i =>
      let cnt2 := if x = op then cnt + 1 else if x = cl then cnt - 1 else cnt
      if x = cl ∧ cnt2 = 0 then some i else balEnd op cl xs cnt2 (i + 1)

/-- Extract the balanced region starting at `start`. -/
def balExtract (op cl : Char) (s : JStr) (start : Nat) : Option JStr :=
  (balEnd op cl (s.drop start) 0 0).map (fun j => (s.drop start).take (j + 1))

/-- Method 1: balanced extraction from the first `[` or `{`, preferring the
array when it comes first. -/
def method1 (cleaned : JStr) : Option JStr :=
  match cleaned.findIdx? (· = '['), cleaned.findIdx? (· = lbrace) with
  | some a, some o =>
      if a < o then balExtract '[' ']' cleaned a else balExtract lbrace rbrace cleaned o
  | some a, none => balExtract '[' ']' cleaned a
  | none, some o => balExtract lbrace rbrace cleaned o
  | none, none => none

/-- The lookahead `(?=\s*(?:TICKS|$|[^\s}]))` of the method-2 regex reduces to:
after the maximal whitespace run, either the string ends or the next
character is not `}`. -/
def lookahead2 (rest : JStr) : Bool :=
  match rest.dropWhile isJsWs with
  | [] => true
  | c :: _ => c ≠ rbrace

/-- Find the first closing brace whose lookahead succeeds (the lazy
`[\s\S]*?` extends past closing braces that fail the lookahead). -/
def findClose2 : JStr → Nat → Option Nat
  | [], _ => none
  | c :: cs, i => if c = rbrace ∧ lookahead2 cs then some i else findClose2 cs (i + 1)

/-- Method 2: the regex fallback `/\{[\s\S]*?\}(?=...)/`; the leftmost match
starts at the first `{` having a valid closing brace after it (a later `{`
cannot match if the first one does not). -/
def method2 (cleaned : JStr) : Option JStr :=
  match cleaned.findIdx? (· = lbrace) with
  | none => none
  | some i =>
      match cleaned.drop i with
      | [] => none
      | b :: tail =>
          (findClose2 tail 1).map (fun j => (b :: tail).take (j + 1))

/-- Last index of a character. -/
def lastIdxOf (c : Char) (s : JStr) : Option Nat :=
  (s.reverse.findIdx? (· = c)).map (fun i => s.length - 1 - i)

/-- Method 3: everything between the first `{` and the last `}`. -/
def method3 (cleaned : JStr) : Option JStr :=
  match cleaned.findIdx? (· = lbrace), lastIdxOf rbrace cleaned with
  | some f, some l => if f < l then some ((cleaned.drop f).take (l - f + 1)) else none
  | _, _ => none

/-- Split on newline characters, keeping empty pieces (`String.split("\n")`). -/
def splitNl : JStr → List JStr
  | [] => [[]]
  | c :: cs =>
      if c = '\n' then [] :: splitNl cs
      else
        match splitNl cs with
        | [] => [[c]]
        | l :: ls => (c :: l) :: ls

/-- Does the trimmed line qualify for method 4 (starts with `{` or contains
a colon)? -/
def jsonLineLike (line : JStr) : Bool :=
  (match jsTrim line with
   | c :: _ => c = lbrace
   | [] => false) || (jsTrim line).contains ':'

/-- Method 4: keep key/value-looking lines and rejoin them. -/
def method4 (cleaned : JStr) : Option JStr :=
  let jsonLines := (splitNl cleaned).filter jsonLineLike
  if jsonLines.isEmpty then none
  else
    let joined := jsTrim (List.intercalate ['\n'] jsonLines)
    if joined.isEmpty then none else some joined

/-- The full extraction cascade of `parseAIResponse` (methods 1-4, falling
back to the whole cleaned text). -/
def extractJsonContent (cleaned : JStr) : JStr :=
  match method1 cleaned with
  | some r => r
  | none =>
      match method2 cleaned with
      | some r => r
      | none =>
          match method3 cleaned with
          | some r => r
          | none =>
              match method4 cleaned with
              | some r => r
              | none => cleaned

/-- Trailing-comma removal worker (`/,\\s*CL/g → CL`, fuel bounds depth). -/
def repairCommaCloseA (cl : Char) : Nat → JStr → JStr
  | 0, s => s
  | f + 1, [] => []
  | f + 1, c :: cs =>
      if c = ',' then
        match cs.dropWhile isJsWs with
        | d :: rest =>
            if d = cl then cl :: repairCommaCloseA cl f rest
            else c :: repairCommaCloseA cl f cs
        | [] => c :: repairCommaCloseA cl f cs
      else c :: repairCommaCloseA cl f cs

/-- The global replacement `/,\s*CL/g → CL` (trailing-comma removal, with
`CL` the closing brace or bracket). -/
def repairCommaClose (cl : Char) (s : JStr) : JStr := repairCommaCloseA cl s.length s

/-- Bare-key quoting worker (fuel bounds depth). -/
def repairBareKeysA : Nat → JStr → JStr
  | 0, s => s
  | f + 1, [] => []
  | f + 1, c :: cs =>
      if isWordCh c then
        match cs.dropWhile isWordCh with
        | ':' :: r2 =>
            '"' :: (c :: cs.takeWhile isWordCh) ++ '"' :: ':' :: repairBareKeysA f r2
        | r => (c :: cs.takeWhile isWordCh) ++ repairBareKeysA f r
      else c :: repairBareKeysA f cs

/-- The global replacement `/(\w+):/g → "$1":` (quote bare keys): a word run
followed directly by a colon is wrapped in quotes. -/
def repairBareKeys (s : JStr) : JStr := repairBareKeysA s.length s

/-- Character class `[^",[{}]` of the bare-value repair regex. -/
def valClassCh (c : Char) : Bool :=
  !(c = '"' || c = ',' || c = '[' || c = lbrace || c = rbrace)

/-- Lookahead `(?=\s*[,}])`. -/
def lookahead4 (rest : JStr) : Bool :=
  match rest.dropWhile isJsWs with
  | c :: _ => c = ',' ∨ c = rbrace
  | [] => false

/-- Backtracking search for the greedy capture length: the largest `k ≥ 1`
such that the lookahead succeeds after the first `k` characters of the run. -/
def findCapLen (run rest : JStr) : Nat → Option Nat
  | 0 => none
  | k + 1 =>
      if lookahead4 (run.drop (k + 1) ++ rest) then some (k + 1)
      else findCapLen run rest k

/-- Attempt the bare-value regex `:\s*([^",[{}]+)(?=\s*[,}])` immediately
after a colon; on success return the capture and the input remaining after
the match (always shorter than the input).  When no capture starting at the
first non-whitespace character satisfies the lookahead, the greedy `\s*`
backtracks one character: the capture class admits whitespace, so a colon
whose whitespace run is followed directly by `,` or `}` still matches, with
the run's last whitespace character as the capture. -/
def r4Try (afterColon : JStr) : Option (JStr × JStr) :=
  let ws := afterColon.takeWhile isJsWs
  let t := afterColon.dropWhile isJsWs
  let run := t.takeWhile valClassCh
  let rest := t.dropWhile valClassCh
  match findCapLen run rest run.length with
  | some k => some (run.take k, run.drop k ++ rest)
  | none =>
      match run, ws.reverse with
      | [], w :: _ => if lookahead4 rest then some ([w], rest) else none
      | _, _ => none

/-- Bare-value quoting worker (fuel bounds depth). -/
def repairBareValsA : Nat → JStr → JStr
  | 0, s => s
  | f + 1, [] => []
  | f + 1, c :: cs =>
      if c = ':' then
        match r4Try cs with
        | some (cap, rest) =>
            ':' :: ' ' :: '"' :: cap ++ '"' :: repairBareValsA f rest
        | none => c :: repairBareValsA f cs
      else c :: repairBareValsA f cs

/-- The global bare-value replacement pass. -/
def repairBareVals (s : JStr) : JStr := repairBareValsA s.length s

/-- The repair sequence applied when the extracted content fails to parse:
strip trailing commas before `}` and `]`, quote bare keys, quote bare
scalar values. -/
def repairJson (s : JStr) : JStr :=
  repairBareVals (repairBareKeys (repairCommaClose ']' (repairCommaClose rbrace s)))

/-- An `EventProperty` record as built by `parseAIResponse` and
`generateMockAnalysis`.  Fields copied from unvalidated JSON keep the
JavaScript value type `JVal`; `exampleV` embeds the `example` member. -/
structure EvProp where
  name : JVal
  type : JVal
  source : JVal
  required : JVal
  exampleV : JVal
  confidence : ℚ
  description : JVal

/-- An `AnalyticsEvent` record as built by `parseAIResponse`. -/
structure AnalyticsEvent where
  id : JStr
  name : JVal
  elementId : JVal
  properties : List EvProp
  triggers : JVal
  sources : List JVal
  confidence : ℚ
  category : JStr

/-- A `TrackingSpec` record. -/
structure TrackingSpecRec where
  eventName : JVal
  description : JVal
  triggers : JVal
  properties : List EvProp
  examples : List (JStr × JVal)
  mandatory : JVal
  optional : JVal

/-- A `ScreenshotResult`/`ScreenshotData` input record. -/
structure ScreenshotData where
  dataUrl : JStr
  width : ℚ
  height : ℚ
  timestamp : ℚ

/-- The screenshot records placed in a `JourneyAnalysisResult` (format and an
empty blob attached). -/
structure ScreenshotOut where
  dataUrl : JStr
  width : ℚ
  height : ℚ
  format : JStr
  timestamp : ℚ
  blob : Unit

/-- The `JourneyAnalysisResult` returned by the analysis service. -/
structure JourneyAnalysisResult where
  events : List AnalyticsEvent
  globalProperties : List EvProp
  carriedProperties : List (JStr × List EvProp)
  recommendations : JVal
  dataTypes : List (JStr × JStr)
  trackingSpec : List TrackingSpecRec
  confidence : JVal
  screenshots : List ScreenshotOut

/-- JavaScript `a || b`. -/
def jvOr (a b : JVal) : JVal := if truthy a then a else b

/-- `parsed.flatMap(screenData => screenData.events || [])`: a member read on
a `null` element throws; an array contribution is spliced, any other truthy
value contributes itself, a falsy one contributes nothing. -/
def flatMapEvents : List JVal → Option (List JVal)
  | [] => some []
  | sd :: rest => do
      let ev ← getField sd (js "events")
      let contrib :=
        if truthy ev then
          match ev with
          | .arr ys => ys
          | v => [v]
        else []
      let es ← flatMapEvents rest
      some (contrib ++ es)

/-- Determine `allEvents` from the parsed value: array of screen blocks, an
object with a `screens` array, an object with a top-level `events` array, or
nothing. -/
def allEventsOf (parsed : JVal) : Option (List JVal) :=
  match parsed with
  | .arr xs => flatMapEvents xs
  | _ => do
      let screens ← getField parsed (js "screens")
      match screens with
      | .arr xs => flatMapEvents xs
      | _ =>
          let evs ← getField parsed (js "events")
          match evs with
          | .arr ys => some ys
          | _ => some []

/-- Effectful map over `Option` (the semantics of `Array.prototype.map`
with a callback that may throw: the first exception aborts everything). -/
def mapOption {A B : Type} (f : A → Option B) : List A → Option (List B)
  | [] => some []
  | a :: as => do
      let b ← f a
      let bs ← mapOption f as
      some (b :: bs)

/-- Convert one structured property of the new response format
(confidence fixed at `0.9`). -/
def convProp (p : JVal) : Option EvProp := do
  let n ← getField p (js "name")
  let t ← getField p (js "type")
  let src ← getField p (js "source")
  let req ← getField p (js "required")
  let ex ← getField p (js "example")
  let d ← getField p (js "description")
  some ⟨n, t, src, req, ex, 9/10, d⟩

/-- The legacy-format `elementText` property. -/
def elementTextProp (elem : JVal) : EvProp :=
  ⟨.str (js "elementText"), .str (js "string"), .str (js "on-screen"), .bool true,
    elem, 9/10, .str (js "Text or description of the UI element")⟩

/-- The legacy-format `eventType` property. -/
def eventTypeProp (et : JVal) : EvProp :=
  ⟨.str (js "eventType"), .str (js "string"), .str (js "on-screen"), .bool true,
    et, 9/10, .str (js "Type of user interaction")⟩

/-- A legacy-format additional property from one `Object.entries` pair. -/
def addlProp (kv : JStr × JVal) : EvProp :=
  ⟨.str kv.1, .str (typeofStr kv.2), .str (js "on-screen"), .bool false,
    kv.2, 4/5, .str (js "Additional property: " ++ kv.1)⟩

/-- The property list of a converted event: the structured mapping when
`properties` is a (truthy) array, the legacy reconstruction otherwise. -/
def eventProps (ev : JVal) (props0 : JVal) : Option (List EvProp) :=
  match props0 with
  | .arr ps => mapOption convProp ps
  | _ => do
      let elem ← getField ev (js "element")
      let et ← getField ev (js "eventType")
      let addl ← getField ev (js "additionalProperties")
      some ((if truthy elem then [elementTextProp elem] else []) ++
            (if truthy et then [eventTypeProp et] else []) ++
            (if truthy addl then (entriesOf addl).map addlProp else []))

/-- Convert one element of `allEvents` (at position `i`) to an
`AnalyticsEvent`, exactly as the `allEvents.map` callback does. -/
def convertEvent (i : Nat) (ev : JVal) : Option AnalyticsEvent := do
  let name0 ← getField ev (js "name")
  let ename0 ← getField ev (js "eventName")
  let eventName := jvOr name0 (jvOr ename0 (.str (js "event_" ++ natDigits (i + 1))))
  let sel ← getField ev (js "selector")
  let elementId := jvOr sel (.str (js "element_" ++ natDigits (i + 1)))
  let props0 ← getField ev (js "properties")
  let props ← eventProps ev props0
  let trig0 ← getField ev (js "triggers")
  let et2 ← getField ev (js "eventType")
  let elem2 ← getField ev (js "element")
  let triggers := jvOr trig0 (.arr [.str
    (js "User performs " ++ jsToStr (jvOr et2 (.str (js "interaction"))) ++
     js " on " ++ jsToStr (jvOr elem2 (.str (js "element"))))])
  let scr ← getField ev (js "screen")
  some { id := js "event_" ++ natDigits (i + 1)
         name := eventName
         elementId := elementId
         properties := props
         triggers := triggers
         sources := [jvOr scr (.str (js "Mobile App Screen"))]
         confidence := 17/20
         category := js "user_action" }

/-- Convert the event list with its map indices. -/
def convertEvents : Nat → List JVal → Option (List AnalyticsEvent)
  | _, [] => some []
  | i, ev :: rest => do
      let e ← convertEvent i ev
      let es ← convertEvents (i + 1) rest
      some (e :: es)

/-- Convert one AI-provided global property (source forced to `global`,
confidence `0.95`). -/
def convGlobalProp (p : JVal) : Option EvProp := do
  let n ← getField p (js "name")
  let t ← getField p (js "type")
  let req ← getField p (js "required")
  let ex ← getField p (js "example")
  let d ← getField p (js "description")
  some ⟨n, t, .str (js "global"), req, ex, 19/20, d⟩

/-- The default global properties generated when the response has none;
`now` is the value of `new Date().toISOString()` at the call. -/
def defaultGlobals (now : JStr) : List EvProp :=
  [⟨.str (js "userId"), .str (js "string"), .str (js "global"), .bool true,
      .str (js "user_123456"), 19/20, .str (js "Unique user identifier")⟩,
   ⟨.str (js "sessionId"), .str (js "string"), .str (js "global"), .bool true,
      .str (js "session_abc123"), 19/20, .str (js "Current session identifier")⟩,
   ⟨.str (js "timestamp"), .str (js "string"), .str (js "global"), .bool true,
      .str now, 19/20, .str (js "Event occurrence timestamp")⟩]

/-- Global-property handling of `parseAIResponse`. -/
def globalPropsOf (now : JStr) (parsed : JVal) : Option (List EvProp) := do
  let gp ← getField parsed (js "globalProperties")
  match gp with
  | .arr ps => mapOption convGlobalProp ps
  | _ => some (defaultGlobals now)

/-- Convert one carried property (source forced to `carried-forward`,
confidence `0.9`). -/
def convCarriedProp (p : JVal) : Option EvProp := do
  let n ← getField p (js "name")
  let t ← getField p (js "type")
  let req ← getField p (js "required")
  let ex ← getField p (js "example")
  let d ← getField p (js "description")
  some ⟨n, t, .str (js "carried-forward"), req, ex, 9/10, d⟩

/-- Collect the array-valued entries of `carriedProperties`. -/
def collectCarried : List (JStr × JVal) → Option (List (JStr × List EvProp))
  | [] => some []
  | (k, v) :: rest =>
      match v with
      | .arr ps => do
          let l ← mapOption convCarriedProp ps
          let r ← collectCarried rest
          some ((k, l) :: r)
      | _ => collectCarried rest

/-- Carried-property handling of `parseAIResponse`. -/
def carriedOf (parsed : JVal) : Option (List (JStr × List EvProp)) := do
  let cp ← getField parsed (js "carriedProperties")
  if truthy cp ∧ typeofStr cp = js "object" then collectCarried (entriesOf cp)
  else some []

/-- The default property of a tracking-spec record when the event has no
`properties` member. -/
def defaultSpecProp (elem : JVal) : EvProp :=
  ⟨.str (js "elementText"), .str (js "string"), .str (js "on-screen"), .bool true,
    jvOr elem (.str (js "button")), 9/10, .str (js "Text or description of the UI element")⟩

/-- The `examples` object built by the tracking-spec `reduce` (keys are the
string coercions of the property names, later assignments overwrite). -/
def specExamples : List JVal → List (JStr × JVal) → Option (List (JStr × JVal))
  | [], acc => some acc
  | p :: rest, acc => do
      let n ← getField p (js "name")
      let ex ← getField p (js "example")
      specExamples rest (setKey acc (jsToStr n) ex)

/-- The properties and examples of a tracking-spec record: structured when
`properties` is truthy (throwing when it is truthy but not an array, since
`.map` is then not a function), defaults otherwise. -/
def specPropsExamples (props0 elem et : JVal) :
    Option (List EvProp × List (JStr × JVal)) :=
  if truthy props0 then
    match props0 with
    | .arr ps => do
        let l ← mapOption convProp ps
        let ex ← specExamples ps []
        some (l, ex)
    | _ => none
  else
    some ([defaultSpecProp elem],
          [(js "elementText", jvOr elem (.str (js "button"))),
           (js "eventType", jvOr et (.str (js "click")))])

/-- Convert one element of `allEvents` to a `TrackingSpec` record.  A truthy
non-array `properties` member throws (`.map` is not a function), which the
outer catch turns into the mock result. -/
def convertSpec (ev : JVal) : Option TrackingSpecRec := do
  let name0 ← getField ev (js "name")
  let ename0 ← getField ev (js "eventName")
  let eventName := jvOr name0 (jvOr ename0 (.str (js "unknownEvent")))
  let desc0 ← getField ev (js "description")
  let et ← getField ev (js "eventType")
  let description := jvOr desc0 (.str
    (js "User performs " ++ jsToStr (jvOr et (.str (js "interaction")))))
  let trig0 ← getField ev (js "triggers")
  let triggers := jvOr trig0 (.arr [.str
    (js "User performs " ++ jsToStr (jvOr et (.str (js "interaction"))))])
  let props0 ← getField ev (js "properties")
  let elem ← getField ev (js "element")
  let pe ← specPropsExamples props0 elem et
  let mand0 ← getField ev (js "mandatory")
  let opt0 ← getField ev (js "optional")
  some ⟨eventName, description, triggers, pe.1, pe.2,
        jvOr mand0 (.arr [.str (js "elementText")]), jvOr opt0 (.arr [])⟩

/-- Build the structured result from the parsed JSON value; `none` models an
exception escaping to the catch block of `parseAIResponse`. -/
def convertParsed (now : JStr) (shots : List ScreenshotData) (parsed : JVal) :
    Option JourneyAnalysisResult := do
  let allEvents ← allEventsOf parsed
  let events ← convertEvents 0 allEvents
  let globalProperties ← globalPropsOf now parsed
  let carriedProperties ← carriedOf parsed
  let trackingSpec ← mapOption convertSpec allEvents
  let rec0 ← getField parsed (js "recommendations")
  let conf0 ← getField parsed (js "confidence")
  some { events := events
         globalProperties := globalProperties
         carriedProperties := carriedProperties
         recommendations := jvOr rec0 (.arr
           [.str (js "Track all UI element interactions for comprehensive user behavior analysis"),
            .str (js "Monitor event types to understand interaction patterns"),
            .str (js "Analyze additional properties to identify optimization opportunities")])
         dataTypes := []
         trackingSpec := trackingSpec
         confidence := jvOr conf0 (.num (17/20))
         screenshots := shots.map (fun s => ⟨s.dataUrl, s.width, s.height, js "png", s.timestamp, ()⟩) }

/-- Shorthand for a fully-populated mock property record. -/
def mkP (n t src : String) (req : Bool) (ex : JVal) (conf : ℚ) (d : String) : EvProp :=
  ⟨.str (js n), .str (js t), .str (js src), .bool req, ex, conf, .str (js d)⟩

/-- Mock event 1, `feedBannerClicked`. -/
def mockEvent1 : AnalyticsEvent :=
  { id := js "event_1"
    name := .str (js "feedBannerClicked")
    elementId := .str (js "promoBanner")
    properties :=
      [mkP "bannerId" "string" "on-screen" true (.str (js "banner001")) (19/20)
         "Unique identifier for the clicked banner",
       mkP "imageUrl" "string" "on-screen" true (.str (js "https://example.com/banner.jpg")) (23/25)
         "URL of the banner image",
       mkP "redirectUrl" "string" "on-screen" true (.str (js "https://example.com/contest")) (9/10)
         "Destination URL when banner is clicked",
       mkP "source" "string" "global" true (.str (js "homeScreen")) (19/20)
         "Screen where banner was clicked"]
    triggers := .arr [.str (js "User clicks on promotional banner")]
    sources := [.str (js "Home Screen")]
    confidence := 93/100
    category := js "user_action" }

/-- Mock event 2, `roundSelected`. -/
def mockEvent2 : AnalyticsEvent :=
  { id := js "event_2"
    name := .str (js "roundSelected")
    elementId := .str (js "matchCard")
    properties :=
      [mkP "roundId" "number" "on-screen" true (.num 12345) (19/20) "Unique round identifier",
       mkP "contestJoinCount" "number" "global" false (.num 2) (22/25)
         "Number of contests user has already joined for this round",
       mkP "isLineupOut" "boolean" "on-screen" true (.bool true) (9/10)
         "Whether team lineups are announced",
       mkP "roundStatus" "string" "on-screen" true (.str (js "upcoming")) (23/25)
         "Current status of the round",
       mkP "section" "string" "on-screen" true (.str (js "forYou")) (17/20)
         "Section where match was selected from",
       mkP "slotPosition" "number" "on-screen" false (.num 1) (4/5)
         "Position of match card in the list",
       mkP "tourId" "number" "on-screen" true (.num 456) (23/25) "Tournament identifier"]
    triggers := .arr [.str (js "User clicks on match card")]
    sources := [.str (js "Home Screen")]
    confidence := 89/100
    category := js "user_action" }

/-- Mock event 3, `matchesTabInteracted`. -/
def mockEvent3 : AnalyticsEvent :=
  { id := js "event_3"
    name := .str (js "matchesTabInteracted")
    elementId := .str (js "matchesTab")
    properties :=
      [mkP "matchesOption" "string" "on-screen" true (.str (js "today")) (23/25)
         "Selected tab option (forYou, today, tomorrow, etc.)",
       mkP "previousTab" "string" "carried-forward" false (.str (js "forYou")) (3/4)
         "Previously selected tab"]
    triggers := .arr [.str (js "User switches between match tabs")]
    sources := [.str (js "Home Screen")]
    confidence := 87/100
    category := js "user_action" }

/-- Mock event 4, `seeAllMatchesClicked`. -/
def mockEvent4 : AnalyticsEvent :=
  { id := js "event_4"
    name := .str (js "seeAllMatchesClicked")
    elementId := .str (js "see_all_button")
    properties :=
      [mkP "currentSection" "string" "on-screen" true (.str (js "for_you")) (9/10)
         "Current matches section being viewed",
       mkP "visibleMatchesCount" "number" "on-screen" false (.num 5) (4/5)
         "Number of matches visible before clicking see all"]
    triggers := .arr [.str (js "User clicks see all matches")]
    sources := [.str (js "Home Screen")]
    confidence := 17/20
    category := js "user_action" }

/-- Mock event 5, `walletClicked`. -/
def mockEvent5 : AnalyticsEvent :=
  { id := js "event_5"
    name := .str (js "walletClicked")
    elementId := .str (js "wallet_icon")
    properties :=
      [mkP "source" "string" "global" true (.str (js "home_screen")) (19/20)
         "Screen from where wallet was accessed",
       mkP "currentAccountBalance" "number" "global" true (.num (2501/2)) (23/25)
         "Total account balance",
       mkP "currentCashBonusBalance" "number" "global" true (.num 100) (23/25)
         "Cash bonus balance",
       mkP "currentDepositBalance" "number" "global" true (.num 500) (23/25)
         "Deposited amount balance",
       mkP "currentWinningsBalance" "number" "global" true (.num (1301/2)) (23/25)
         "Winnings balance"]
    triggers := .arr [.str (js "User clicks on wallet icon")]
    sources := [.str (js "Any Screen")]
    confidence := 93/100
    category := js "user_action" }

/-- Mock event 6, `contestJoined`. -/
def mockEvent6 : AnalyticsEvent :=
  { id := js "event_6"
    name := .str (js "contestJoined")
    elementId := .str (js "join_button")
    properties :=
      [mkP "contestId" "string" "on-screen" true (.str (js "contest_789")) (19/20)
         "Unique contest identifier",
       mkP "entryFee" "number" "on-screen" true (.num 49) (19/20)
         "Contest entry fee amount",
       mkP "roundId" "number" "carried-forward" true (.num 12345) (9/10)
         "Round ID from previous screen selection",
       mkP "contestType" "string" "on-screen" true (.str (js "head_to_head")) (22/25)
         "Type of contest being joined",
       mkP "totalSpots" "number" "on-screen" false (.num 2) (17/20)
         "Total spots in the contest",
       mkP "spotsFilled" "number" "on-screen" false (.num 1) (17/20)
         "Number of spots already filled"]
    triggers := .arr [.str (js "User successfully joins a contest")]
    sources := [.str (js "Contest Selection Screen")]
    confidence := 91/100
    category := js "user_action" }

/-- The six mock events. -/
def mockEvents : List AnalyticsEvent :=
  [mockEvent1, mockEvent2, mockEvent3, mockEvent4, mockEvent5, mockEvent6]

/-- The mock global properties. -/
def mockGlobalProperties : List EvProp :=
  [mkP "userId" "string" "global" true (.str (js "user_123456")) (19/20)
     "Unique user identifier",
   mkP "platform" "string" "global" true (.str (js "mobile_android")) (19/20)
     "Platform identifier (mobile_android, mobile_ios, web)",
   mkP "sessionId" "string" "global" true (.str (js "session_abc123def")) (19/20)
     "Current session identifier",
   mkP "appVersion" "string" "global" true (.str (js "2.1.5")) (19/20)
     "Application version",
   mkP "timestamp" "string" "global" true (.str (js "2025-07-18T08:30:00Z")) (19/20)
     "Event occurrence timestamp"]

/-- The mock tracking specification. -/
def mockTrackingSpec : List TrackingSpecRec :=
  [{ eventName := .str (js "feedBannerClicked")
     description := .str (js "When user clicks on any promotional banner in the feed")
     triggers := .arr [.str (js "User clicks on banner")]
     properties := mockEvent1.properties
     examples := [(js "bannerId", .str (js "banner001")),
                  (js "imageUrl", .str (js "https://example.com/banner.jpg")),
                  (js "redirectUrl", .str (js "https://example.com/contest")),
                  (js "source", .str (js "homeScreen"))]
     mandatory := .arr [.str (js "bannerId"), .str (js "imageUrl"),
                        .str (js "redirectUrl"), .str (js "source")]
     optional := .arr [.str (js "bannerPosition"), .str (js "bannerCategory")] },
   { eventName := .str (js "roundSelected")
     description := .str (js "When user clicks on a round/match card")
     triggers := .arr [.str (js "User clicks on match card")]
     properties := mockEvent2.properties
     examples := [(js "roundId", .num 12345), (js "contestJoinCount", .num 2),
                  (js "isLineupOut", .bool true), (js "roundStatus", .str (js "upcoming")),
                  (js "section", .str (js "forYou")), (js "slotPosition", .num 1),
                  (js "tourId", .num 456)]
     mandatory := .arr [.str (js "roundId"), .str (js "isLineupOut"),
                        .str (js "roundStatus"), .str (js "section"), .str (js "tourId")]
     optional := .arr [.str (js "contestJoinCount"), .str (js "slotPosition"),
                       .str (js "teamCount")] },
   { eventName := .str (js "matchesTabInteracted")
     description := .str (js "When user switches between upcoming matches tabs")
     triggers := .arr [.str (js "User clicks on tab")]
     properties := mockEvent3.properties
     examples := [(js "matchesOption", .str (js "today")),
                  (js "previousTab", .str (js "forYou"))]
     mandatory := .arr [.str (js "matchesOption")]
     optional := .arr [.str (js "previousTab"), .str (js "timeSpentOnTab")] },
   { eventName := .str (js "seeAllMatchesClicked")
     description := .str (js "When user clicks see all matches button")
     triggers := .arr [.str (js "User clicks see all matches")]
     properties := mockEvent4.properties
     examples := [(js "currentSection", .str (js "forYou")),
                  (js "visibleMatchesCount", .num 5)]
     mandatory := .arr [.str (js "currentSection")]
     optional := .arr [.str (js "visibleMatchesCount"), .str (js "totalMatchesAvailable")] },
   { eventName := .str (js "walletClicked")
     description := .str (js "When user clicks on wallet icon from any screen")
     triggers := .arr [.str (js "User clicks wallet icon")]
     properties := mockEvent5.properties
     examples := [(js "source", .str (js "homeScreen")),
                  (js "currentAccountBalance", .num (2501/2)),
                  (js "currentCashBonusBalance", .num 100),
                  (js "currentDepositBalance", .num 500),
                  (js "currentWinningsBalance", .num (1301/2))]
     mandatory := .arr [.str (js "source"), .str (js "currentAccountBalance"),
                        .str (js "currentCashBonusBalance"), .str (js "currentDepositBalance"),
                        .str (js "currentWinningsBalance")]
     optional := .arr [.str (js "lastTransactionAmount"), .str (js "pendingWithdrawals")] },
   { eventName := .str (js "contestJoined")
     description := .str (js "When user successfully joins a contest")
     triggers := .arr [.str (js "User clicks join contest and completes action")]
     properties := mockEvent6.properties
     examples := [(js "contestId", .str (js "contest789")), (js "entryFee", .num 49),
                  (js "roundId", .num 12345), (js "contestType", .str (js "headToHead")),
                  (js "totalSpots", .num 2), (js "spotsFilled", .num 1)]
     mandatory := .arr [.str (js "contestId"), .str (js "entryFee"),
                        .str (js "roundId"), .str (js "contestType")]
     optional := .arr [.str (js "totalSpots"), .str (js "spotsFilled"),
                       .str (js "discountApplied"), .str (js "teamId")] }]

/-- The deterministic mock analysis (`generateMockAnalysis`): a fixed
six-event seeded result with aggregate confidence `0.88`. -/
def generateMockAnalysis (shots : List ScreenshotData) : JourneyAnalysisResult :=
  { events := mockEvents
    globalProperties := mockGlobalProperties
    carriedProperties :=
      [(js "homeScreen",
         [mkP "roundId" "number" "carried-forward" true (.num 12345) (9/10)
            "Round ID selected from home screen, carried to contest screen",
          mkP "tourId" "number" "carried-forward" true (.num 456) (22/25)
            "Tournament ID carried from match selection"]),
       (js "contestScreen",
         [mkP "contestId" "string" "carried-forward" true (.str (js "contest_789")) (23/25)
            "Contest ID carried to team creation screen",
          mkP "entryFee" "number" "carried-forward" true (.num 49) (9/10)
            "Entry fee amount carried to payment screen"])]
    recommendations := .arr
      [.str (js "Track source/referrer for all events to understand user journey paths"),
       .str (js "Include slot_position for list items to analyze user interaction patterns"),
       .str (js "Monitor balance changes after each transaction event"),
       .str (js "Track contest join success/failure rates by entry fee ranges"),
       .str (js "Analyze banner click-through rates by position and content type"),
       .str (js "Monitor tab switching patterns to optimize content organization"),
       .str (js "Track carried properties consistency across screens"),
       .str (js "Ensure proper data types for mathematical operations on monetary values"),
       .str (js "Include timestamp precision for time-based analytics"),
       .str (js "Monitor user engagement depth by tracking see_all interactions")]
    dataTypes :=
      [(js "banner_id", js "string"), (js "round_id", js "number"),
       (js "contest_id", js "string"), (js "entry_fee", js "number"),
       (js "tour_id", js "number"), (js "user_id", js "string"),
       (js "contest_join_count", js "number"), (js "is_lineup_out", js "boolean"),
       (js "current_account_balance", js "number"),
       (js "current_cash_bonus_balance", js "number"),
       (js "current_deposit_balance", js "number"),
       (js "current_winnings_balance", js "number"),
       (js "slot_position", js "number"), (js "visible_matches_count", js "number"),
       (js "total_spots", js "number"), (js "spots_filled", js "number")]
    trackingSpec := mockTrackingSpec
    confidence := .num (22/25)
    screenshots := shots.map (fun s => ⟨s.dataUrl, s.width, s.height, js "png", s.timestamp, ()⟩) }

/-- The extraction-validation-repair-parse-convert pipeline of
`parseAIResponse` after the text has been cleaned; `none` models any thrown
error reaching the catch block. -/
def parsePipeline (now : JStr) (shots : List ScreenshotData) (cleaned : JStr) :
    Option JourneyAnalysisResult :=
  let jc := extractJsonContent cleaned
  let jc2 := if (jsonParse jc).isSome then jc else repairJson jc
  match jsonParse jc2 with
  | some v => convertParsed now shots v
  | none => none

/-- The text cleaning prefix of `parseAIResponse`: trim, remove code fences,
slice from the first explanatory-text brace. -/
def cleanResponse (text : JStr) : JStr :=
  sliceFromBrace (stripTicks (stripFenceJson (jsTrim text)))

/-- `parseAIResponse`: parse the raw model text, falling back to the mock
analysis when anything throws.  `now` is the clock value used for the
default `timestamp` global property. -/
def parseAIResponse (now : JStr) (text : JStr) (shots : List ScreenshotData) :
    JourneyAnalysisResult :=
  match parsePipeline now shots (cleanResponse text) with
  | some r => r
  | none => generateMockAnalysis shots

/-- The `AIConfig` of `AIConfigContext` as read by `getApiConfig`: a selected
provider, stored API keys (empty string when unset) and a selected model. -/
structure AIConfig where
  selectedProvider : JStr
  openaiKey : JStr
  geminiKey : JStr
  selectedModel : JStr

/-- The provider/key/model triple chosen by `getApiConfig`. -/
structure ApiCfg where
  provider : JStr
  apiKey : JStr
  model : JStr

/-- `getApiConfig`: pick the configured provider and its key, falling back to
OpenAI with an empty key. -/
def getApiConfig (cfg : Option AIConfig) : ApiCfg :=
  match cfg with
  | some c =>
      if c.selectedProvider = js "openai" then
        ⟨js "openai", c.openaiKey, if c.selectedModel ≠ [] then c.selectedModel else js "gpt-4o"⟩
      else if c.selectedProvider = js "gemini" then
        ⟨js "gemini", c.geminiKey, if c.selectedModel ≠ [] then c.selectedModel else js "gemini-1.5-flash"⟩
      else ⟨js "openai", [], js "gpt-4o"⟩
  | none => ⟨js "openai", [], js "gpt-4o"⟩

/-- `analyzeScreenshots`: with a configured provider and key, call the
backend (modelled by `backend`, the raw response text or a thrown failure)
and parse; otherwise, or when the call or the parse fails, return the mock
analysis.  The inner catch blocks rethrow, so every failure reaches the
outer catch and yields the mock. -/
def analyzeScreenshots (cfg : Option AIConfig) (now : JStr)
    (shots : List ScreenshotData) (backend : Except Unit JStr) :
    JourneyAnalysisResult :=
  let api := getApiConfig cfg
  if api.provider = js "openai" ∧ api.apiKey ≠ [] then
    match backend with
    | .ok text => parseAIResponse now text shots
    | .error _ => generateMockAnalysis shots
  else if api.provider = js "gemini" ∧ api.apiKey ≠ [] then
    match backend with
    | .ok text => parseAIResponse now text shots
    | .error _ => generateMockAnalysis shots
  else generateMockAnalysis shots

/-- A typed `EventProperty` record (the `NewApp` interface), as carried in
user feedback and learned patterns. -/
structure RagProp where
  name : JStr
  type : JStr
  source : JStr
  required : Bool
  exampleV : JVal
  confidence : ℚ
  description : Option JStr

/-- A typed `AnalyticsEvent` record (the `NewApp` interface). -/
structure AEvent where
  id : JStr
  name : JStr
  elementId : JStr
  screenId : Option JStr
  properties : List RagProp
  triggers : List JStr
  sources : List JStr
  confidence : ℚ
  category : JStr

/-- An `AnalysisPattern` of the RAG service.  Counts and timestamps are
JavaScript numbers. -/
structure Pattern where
  id : JStr
  screenType : JStr
  commonEvents : List JStr
  successfulProperties : List RagProp
  confidenceScore : ℚ
  usageCount : ℚ
  lastUsed : ℚ

/-- A `DomainKnowledge` record of the RAG service. -/
structure DomainKnowledge where
  id : JStr
  category : JStr
  title : JStr
  description : JStr
  examples : List JVal
  applicableScreens : List JStr
  confidence : ℚ

/-- The `improvements` member of a feedback record. -/
structure Improvements where
  propertyCorrections : List (JStr × List RagProp)
  eventNameChanges : List (JStr × JStr)
  categoryCorrections : List (JStr × JStr)

/-- A `UserFeedback` record. -/
structure UserFeedback where
  analysisId : JStr
  correctedEvents : List AEvent
  userComments : JStr
  confidence : ℚ
  timestamp : ℚ
  improvements : Improvements

/-- Metadata stored with an indexed vector document. -/
structure VMeta where
  mtype : JStr
  confidence : ℚ
  timestamp : ℚ

/-- A document of the in-memory vector store. -/
structure VDoc where
  content : JStr
  metadata : VMeta
  embedding : List ℚ

/-- Insertion-order-preserving map assignment (JavaScript `Map.set`). -/
def assocSet {α : Type} : List (JStr × α) → JStr → α → List (JStr × α)
  | [], k, v => [(k, v)]
  | (k0, v0) :: rest, k, v =>
      if k0 = k then (k0, v) :: rest else (k0, v0) :: assocSet rest k v

/-- Map lookup (JavaScript `Map.get`). -/
def assocGet {α : Type} : List (JStr × α) → JStr → Option α
  | [], _ => none
  | (k0, v0) :: rest, k => if k0 = k then some v0 else assocGet rest k

/-- The in-memory state of a `RAGService` instance (the vector store is the
`InMemoryVectorStore` document map). -/
structure RAGState where
  feedbackHistory : List UserFeedback
  analysisPatterns : List (JStr × Pattern)
  domainKnowledge : List (JStr × DomainKnowledge)
  vectorDocs : List (JStr × VDoc)

/-- Descending insertion by `confidenceScore` (the comparator
`(a, b) => b.confidenceScore - a.confidenceScore`). -/
def insertPatDesc (x : Pattern) : List Pattern → List Pattern
  | [] => [x]
  | y :: ys =>
      if x.confidenceScore > y.confidenceScore then x :: y :: ys
      else y :: insertPatDesc x ys

/-- Sort patterns by descending `confidenceScore`. -/
def sortPatDesc : List Pattern → List Pattern
  | [] => []
  | x :: xs => insertPatDesc x (sortPatDesc xs)

/-- `retrieveRelevantPatterns`: the stored patterns with confidence above
`0.7`, sorted descending, first three. -/
def retrieveRelevantPatterns (st : RAGState) : List Pattern :=
  (sortPatDesc ((st.analysisPatterns.map Prod.snd).filter
    (fun p => p.confidenceScore > 7/10))).take 3

/-- `retrieveDomainKnowledge`: the stored knowledge items with confidence
above `0.8`, first three (no sorting in the source). -/
def retrieveDomainKnowledge (st : RAGState) : List DomainKnowledge :=
  ((st.domainKnowledge.map Prod.snd).filter (fun k => k.confidence > 4/5)).take 3

/-- `getHistoricalInsights`: comments of high-confidence feedback, first
three. -/
def getHistoricalInsights (st : RAGState) : List JStr :=
  (((st.feedbackHistory.filter (fun f => f.confidence > 4/5)).filter
    (fun f => f.userComments ≠ [])).map (fun f => f.userComments)).take 3

/-- `Math.min` on the exact rationals, in a form the kernel can evaluate. -/
def jsMin (a b : ℚ) : ℚ := if a ≤ b then a else b

theorem jsMin_eq_min (a b : ℚ) : jsMin a b = min a b := by
  rw [jsMin, min_def]

/-- `calculateConfidenceBoosts`: for every common event of every pattern,
assign `min(0.2, confidenceScore * 0.2)` (later patterns overwrite). -/
def calculateConfidenceBoosts (patterns : List Pattern) : List (JStr × ℚ) :=
  patterns.foldl
    (fun boosts p =>
      p.commonEvents.foldl
        (fun b en => assocSet b en (jsMin (1/5) (p.confidenceScore * (1/5)))) boosts)
    []

/-- One step of `updatePatternsFromFeedback` for a single corrected event:
find or create the category pattern, extend its events and properties,
bump usage, reinforce confidence with cap `1.0`. -/
def updatePatternStep (now : ℚ) (pats : List (JStr × Pattern)) (ev : AEvent) :
    List (JStr × Pattern) :=
  let pid := ev.category ++ js "_pattern"
  let pat := (assocGet pats pid).getD ⟨pid, ev.category, [], [], 1/2, 0, now⟩
  let pat1 :=
    if ev.name ∈ pat.commonEvents then pat
    else { pat with commonEvents := pat.commonEvents ++ [ev.name] }
  let props1 := ev.properties.foldl
    (fun sp prop => if sp.any (fun q => q.name = prop.name) then sp else sp ++ [prop])
    pat1.successfulProperties
  assocSet pats pid
    { pat1 with successfulProperties := props1
                usageCount := pat1.usageCount + 1
                confidenceScore := jsMin 1 (pat1.confidenceScore + 1/10)
                lastUsed := now }

/-- `updatePatternsFromFeedback` over all corrected events. -/
def updatePatternsFromFeedback (now : ℚ) (pats : List (JStr × Pattern))
    (fb : UserFeedback) : List (JStr × Pattern) :=
  fb.correctedEvents.foldl (updatePatternStep now) pats

/-- `updateDomainKnowledge`: record each event-name correction as an
`event_naming` knowledge item with confidence `0.9`. -/
def updateDomainKnowledge (dk : List (JStr × DomainKnowledge))
    (fb : UserFeedback) : List (JStr × DomainKnowledge) :=
  fb.improvements.eventNameChanges.foldl
    (fun m p =>
      assocSet m (js "naming_" ++ p.2)
        ⟨js "naming_" ++ p.2, js "event_naming",
         js "Event Naming: " ++ p.2,
         js "Successful event name correction from " ++ p.1 ++ js " to " ++ p.2,
         [JVal.obj [(js "old", .str p.1), (js "new", .str p.2)]],
         [js "all"], 9/10⟩)
    dk

/-- `ToInt32` of a JavaScript bitwise operation. -/
def toInt32 (n : Int) : Int := (n + 2 ^ 31) % 2 ^ 32 - 2 ^ 31

/-- One character step of the `simpleEmbedding` hash:
`hash = ((hash << 5) - hash + charCode) & 0xffffffff`. -/
def jsHashStep (h : Int) (c : Char) : Int := toInt32 (toInt32 (h * 32) - h + c.toNat)

/-- The `simpleEmbedding` word hash. -/
def jsHash (w : JStr) : Int := w.foldl jsHashStep 0

/-- The embedding slot of a word: `Math.abs(hash) % embedding.length`. -/
def embIndex (w : JStr) : Nat := (jsHash w).natAbs % 100

/-- Whitespace-split worker (fuel bounds depth; each recursive step consumes
at least one whitespace character). -/
def jsSplitWsA : Nat → JStr → List JStr
  | 0, s => [s]
  | f + 1, s =>
      let tok := s.takeWhile (fun c => !isJsWs c)
      let rest := s.dropWhile (fun c => !isJsWs c)
      if rest.isEmpty then [tok]
      else tok :: jsSplitWsA f (rest.dropWhile isJsWs)

/-- `text.split(/\s+/)`: pieces between maximal whitespace runs, including
an empty leading piece when the text starts with whitespace and an empty
trailing piece when it ends with one; never the empty list. -/
def jsSplitWs (s : JStr) : List JStr := jsSplitWsA (s.length + 1) s

/-- Increment one slot of the embedding vector. -/
def bump (l : List ℚ) (i : Nat) : List ℚ := l.set i (l.getD i 0 + 1)

/-- `simpleEmbedding`: hashed bag-of-words over a 100-slot vector. -/
def simpleEmbedding (text : JStr) : List ℚ :=
  (jsSplitWs (text.map Char.toLower)).foldl (fun emb w => bump emb (embIndex w))
    (List.replicate 100 0)

/-- The dot-product accumulator of `cosineSimilarity` (the loop runs over
the indices of the first vector; every call site supplies two length-100
embeddings, over which it computes exactly these sums). -/
def dotProd (a b : List ℚ) : ℚ := ((a.zip b).map (fun p => p.1 * p.2)).sum

/-- The squared-norm accumulator of `cosineSimilarity`. -/
def normSq (a : List ℚ) : ℚ := (a.map (fun x => x * x)).sum

/-- `addDocument` of the in-memory vector store: embed the content and
store it under the id. -/
def addDocument (docs : List (JStr × VDoc)) (id : JStr) (content : JStr)
    (meta : VMeta) : List (JStr × VDoc) :=
  assocSet docs id ⟨content, meta, simpleEmbedding content⟩

/-- The content template indexed by `indexFeedback`. -/
def feedbackContent (fb : UserFeedback) : JStr :=
  js "\n      Analysis: " ++ fb.analysisId ++
  js "\n      Events: " ++
    List.intercalate (js ", ") (fb.correctedEvents.map (fun e => e.name)) ++
  js "\n      Comments: " ++ fb.userComments ++
  js "\n      Confidence: " ++ ratToStr fb.confidence ++ js "\n    "

/-- `indexFeedback`: store the feedback summary as a vector document keyed
by the analysis id. -/
def indexFeedback (docs : List (JStr × VDoc)) (fb : UserFeedback) :
    List (JStr × VDoc) :=
  addDocument docs fb.analysisId (feedbackContent fb)
    ⟨js "feedback", fb.confidence, fb.timestamp⟩

/-- `learnFromFeedback`: append to history, update patterns, update domain
knowledge, index the feedback (persistence is an external side effect). -/
def learnFromFeedback (st : RAGState) (fb : UserFeedback) (now : ℚ) : RAGState :=
  { feedbackHistory := st.feedbackHistory ++ [fb]
    analysisPatterns := updatePatternsFromFeedback now st.analysisPatterns fb
    domainKnowledge := updateDomainKnowledge st.domainKnowledge fb
    vectorDocs := indexFeedback st.vectorDocs fb }

/-- A required seed property example object `{name, type, required}`. -/
def seedProp (n t : String) : JVal :=
  .obj [(js "name", .str (js n)), (js "type", .str (js t)), (js "required", .bool true)]

/-- A seed property example with an `example` member. -/
def seedPropEx (n t ex : String) : JVal :=
  .obj [(js "name", .str (js n)), (js "type", .str (js t)), (js "required", .bool true),
        (js "example", .str (js ex))]

/-- A seed property example with a `description` member. -/
def seedPropDesc (n t d : String) : JVal :=
  .obj [(js "name", .str (js n)), (js "type", .str (js t)), (js "required", .bool true),
        (js "description", .str (js d))]

/-- A seed event example object `{eventName, properties}`. -/
def seedExample (en : String) (ps : List JVal) : JVal :=
  .obj [(js "eventName", .str (js en)), (js "properties", .arr ps)]

/-- A property-type-convention example object `{pattern, type, example}`. -/
def typeConvEx (p t e : String) : JVal :=
  .obj [(js "pattern", .str (js p)), (js "type", .str (js t)), (js "example", .str (js e))]

/-- The curated knowledge seeded by `seedDomainKnowledge`, in source order. -/
def seedKnowledge : List DomainKnowledge :=
  [⟨js "feed_banner_pattern", js "event_naming", js "FeedBannerClicked Event Pattern",
    js "When the user clicks on the feedbanner",
    [seedExample "FeedBannerClicked"
      [seedProp "bannerId" "long", seedProp "imageUrl" "varchar",
       seedProp "redirectUrl" "varchar", seedPropEx "source" "varchar" "MatchCenter"]],
    [js "home", js "match_center"], 19/20⟩,
   ⟨js "round_selection_pattern", js "event_naming", js "RoundSelected Event Pattern",
    js "When the user clicks on a round (match card)",
    [seedExample "RoundSelected"
      [seedPropDesc "contestJoinCount" "int"
         "total count if user has joined a contest already",
       seedProp "isLineupOut" "boolean", seedProp "roundId" "int",
       seedPropEx "roundStatus" "varchar"
         "Completed/Abandoned/Upcoming/Waiting for Review/Not Open",
       seedPropEx "section" "varchar" "For You, Today",
       seedProp "slotPosition" "int",
       seedPropEx "source" "varchar" "MatchCenter/MyMatches",
       seedProp "tourId" "int"]],
    [js "match_selection", js "rounds"], 19/20⟩,
   ⟨js "matches_interaction_pattern", js "event_naming",
    js "matchesinteracted Event Pattern",
    js "When the user clicks on any of the upcoming matches tab (eg: for you, today etc)",
    [seedExample "matchesinteracted" [seedProp "matchesoption" "string"]],
    [js "matches", js "home"], 9/10⟩,
   ⟨js "see_all_matches_pattern", js "event_naming", js "seeallmatches Event Pattern",
    js "When the user clicks on see all matches on the home page",
    [seedExample "seeallmatches" []], [js "home"], 9/10⟩,
   ⟨js "wallet_clicked_pattern", js "event_naming", js "walletclicked Event Pattern",
    js "When the user clicks on the wallet icon",
    [seedExample "walletclicked"
      [seedProp "source" "string", seedProp "currentAccountBalance" "decimal",
       seedProp "currentCashBonusBalance" "decimal",
       seedProp "currentDepositBalance" "decimal",
       seedProp "currentWinningsBalance" "decimal"]],
    [js "all"], 19/20⟩,
   ⟨js "how_to_play_pattern", js "event_naming", js "howtoplaytapped Event Pattern",
    js "When the user clicks on the how to play button",
    [seedExample "howtoplaytapped" [seedProp "source" "string"]],
    [js "help", js "onboarding"], 9/10⟩,
   ⟨js "dream11_naming_conventions", js "event_naming",
    js "Dream11 Event Naming Conventions",
    js "Standard event naming patterns for Dream11 analytics",
    [.str (js "Use descriptive camelCase or lowercase names"),
     .str (js "Include action verbs (clicked, selected, tapped, interacted)"),
     .str (js "Be specific about user interactions"),
     .str (js "Include context when relevant (source, section, etc.)")],
    [js "all"], 17/20⟩,
   ⟨js "property_type_conventions", js "property_types",
    js "Dream11 Property Type Conventions",
    js "Standard property types and naming for Dream11 analytics",
    [typeConvEx "IDs" "int/long" "roundId, tourId, bannerId",
     typeConvEx "Counts" "int" "contestJoinCount, slotPosition",
     typeConvEx "Balances" "decimal" "currentAccountBalance, currentWinningsBalance",
     typeConvEx "Flags" "boolean" "isLineupOut",
     typeConvEx "Sources/Sections" "varchar/string" "source, section, roundStatus",
     typeConvEx "URLs" "varchar" "imageUrl, redirectUrl"],
    [js "all"], 9/10⟩]

/-- The persisted snapshot read back by `loadHistoricalData` (the JSON
document under the `rag_historical_data` key, in parsed form). -/
structure StoredData where
  feedback : List UserFeedback
  patterns : List Pattern

/-- `loadHistoricalData`: restore the feedback history and re-register every
stored pattern under its id. -/
def loadHistoricalData (stored : Option StoredData) :
    List UserFeedback × List (JStr × Pattern) :=
  match stored with
  | none => ([], [])
  | some d => (d.feedback, d.patterns.foldl (fun m p => assocSet m p.id p) [])

/-- `initializeKnowledgeBase`: load historical data, create a fresh (empty)
in-memory vector store, seed the domain knowledge. -/
def initializeKnowledgeBase (stored : Option StoredData) : RAGState :=
  let loaded := loadHistoricalData stored
  { feedbackHistory := loaded.1
    analysisPatterns := loaded.2
    domainKnowledge := seedKnowledge.foldl (fun m k => assocSet m k.id k) []
    vectorDocs := [] }

/-- A typed `TrackingSpec` record (the `NewApp` interface). -/
structure TrackSpecR where
  eventName : JStr
  description : JStr
  triggers : List JStr
  properties : List RagProp
  examples : List (JStr × JVal)
  mandatory : List JStr
  optional : List JStr

/-- The typed `JourneyAnalysisResult`/`AIAnalysis` consumed by the RAG
service and the quality assessor. -/
structure JResultR where
  events : List AEvent
  globalProperties : List RagProp
  carriedProperties : List (JStr × List RagProp)
  recommendations : List JStr
  dataTypes : List (JStr × JStr)
  trackingSpec : List TrackSpecR
  confidence : ℚ

/-- Lower-case a string (`toLowerCase`, ASCII). -/
def toLowerStr (s : JStr) : JStr := s.map Char.toLower

/-- `String.prototype.includes`. -/
def containsSub (n : JStr) : JStr → Bool
  | [] => n.isEmpty
  | c :: cs => n.isPrefixOf (c :: cs) || containsSub n cs

/-- The action-verb naming patterns of the quality assessor. -/
def dreamPatterns : List JStr :=
  [js "clicked", js "selected", js "tapped", js "interacted",
   js "viewed", js "joined", js "created"]

/-- Bonus condition (a): some event name contains an action verb. -/
def hasDreamNaming (r : JResultR) : Bool :=
  r.events.any (fun e => dreamPatterns.any (fun p => containsSub p (toLowerStr e.name)))

/-- The recognized property-type tokens. -/
def typeTokens : List JStr :=
  [js "int", js "long", js "varchar", js "string", js "boolean", js "decimal"]

/-- Bonus condition (b): some property carries a recognized type. -/
def hasTypedProps (r : JResultR) : Bool :=
  r.events.any (fun e => e.properties.any
    (fun p => p.type ≠ [] ∧ toLowerStr p.type ∈ typeTokens))

/-- The domain-specific property names. -/
def dreamProps : List JStr :=
  [js "source", js "roundId", js "tourId", js "contestJoinCount",
   js "bannerId", js "section"]

/-- Bonus condition (c): some property has a domain-specific name. -/
def hasDreamProps (r : JResultR) : Bool :=
  r.events.any (fun e => e.properties.any (fun p => p.name ∈ dreamProps))

/-- Average number of properties per event (division by a zero event count
yields `0` here, and `NaN` in JavaScript; both fail every threshold test
below the same way). -/
def avgProps (r : JResultR) : ℚ :=
  (r.events.map (fun e => (e.properties.length : ℚ))).sum / (r.events.length : ℚ)

/-- Average event confidence. -/
def avgConf (r : JResultR) : ℚ :=
  (r.events.map (fun e => e.confidence)).sum / (r.events.length : ℚ)

/-- Bonus condition (f): `user_id` and `timestamp` among the globals. -/
def hasUserIdProp (r : JResultR) : Bool :=
  r.globalProperties.any (fun p => p.name = js "user_id")

/-- Second half of bonus condition (f). -/
def hasTimestampProp (r : JResultR) : Bool :=
  r.globalProperties.any (fun p => p.name = js "timestamp")

/-- Bonus condition (g): some contextual property. -/
def hasContextProps (r : JResultR) : Bool :=
  r.events.any (fun e => e.properties.any
    (fun p => toLowerStr p.name ∈ [js "source", js "section", js "screen"]))

/-- `toFixed(1)` on the nonnegative averages interpolated into the feedback
strings. -/
def toFixed1 (q : ℚ) : JStr :=
  let t : Int := Int.floor (q * 10 + 1/2)
  intDigits (t / 10) ++ '.' :: natDigits (t % 10).natAbs

/-- The result record of `assessAnalysisQuality`. -/
structure AssessResult where
  score : ℚ
  feedback : List JStr
  improvements : List JStr
/-- The property-coverage bonus tier (condition (d)): `0.1` for an average
of three or more properties per event, `0.05` for at least one. -/
def propsBonus (r : JResultR) : ℚ :=
  if avgProps r ≥ 3 then 1/10 else if avgProps r ≥ 1 then 1/20 else 0

/-- The confidence bonus tier (condition (e)). -/
def confBonus (r : JResultR) : ℚ :=
  if avgConf r ≥ 4/5 then 1/10 else if avgConf r ≥ 3/5 then 1/20 else 0

/-- The feedback line of the property-coverage check. -/
def propsFeedback (r : JResultR) : List JStr :=
  if avgProps r ≥ 3 then
    [js "✅ Good property coverage (" ++ toFixed1 (avgProps r) ++ js " avg per event)"]
  else if avgProps r ≥ 1 then
    [js "⚠️ Moderate property coverage (" ++ toFixed1 (avgProps r) ++ js " avg per event)"]
  else []

/-- The improvement line of the property-coverage check. -/
def propsImprove (r : JResultR) : List JStr :=
  if avgProps r ≥ 3 then []
  else if avgProps r ≥ 1 then
    [js "Add more relevant properties to events (aim for 3+ per event)"]
  else [js "Events need more properties - most Dream11 events have 3+ properties"]

/-- The feedback line of the confidence check. -/
def confFeedback (r : JResultR) : List JStr :=
  if avgConf r ≥ 4/5 then [js "✅ High confidence analysis"]
  else if avgConf r ≥ 3/5 then [js "⚠️ Moderate confidence analysis"]
  else []

/-- The improvement line of the confidence check. -/
def confImprove (r : JResultR) : List JStr :=
  if avgConf r ≥ 4/5 then []
  else if avgConf r ≥ 3/5 then []
  else [js "Low confidence - consider providing clearer screenshots"]
/-- The clamped score of `assessAnalysisQuality` (the sequential `score +=`
accumulation is the sum of the individual bonuses). -/
def assessScore (r : JResultR) : ℚ :=
  jsMin 1 (1/2 + (if hasDreamNaming r then 3/20 else 0)
    + (if hasTypedProps r then 3/20 else 0)
    + (if hasDreamProps r then 1/10 else 0)
    + propsBonus r
    + confBonus r
    + (if hasUserIdProp r && hasTimestampProp r then 1/20 else 0)
    + (if hasContextProps r then 1/10 else 0))

/-- The feedback lines of `assessAnalysisQuality`, in push order. -/
def assessFeedback (r : JResultR) : List JStr :=
  (if hasDreamNaming r then [js "✅ Uses Dream11-style descriptive event naming"] else [])
  ++ (if hasTypedProps r
      then [js "✅ Includes proper property types (int, varchar, boolean, etc.)"] else [])
  ++ (if hasDreamProps r
      then [js "✅ Includes Dream11-specific properties (source, roundId, etc.)"] else [])
  ++ propsFeedback r
  ++ confFeedback r
  ++ (if hasUserIdProp r && hasTimestampProp r
      then [js "✅ Essential global properties included"] else [])
  ++ (if hasContextProps r
      then [js "✅ Includes contextual properties (source, section)"] else [])

/-- The improvement lines of `assessAnalysisQuality`, in push order. -/
def assessImprove (r : JResultR) : List JStr :=
  (if hasDreamNaming r then []
   else [js "Use descriptive action words (clicked, selected, tapped) in event names"])
  ++ (if hasTypedProps r then []
      else [js "Add property types (int, long, varchar, string, boolean, decimal)"])
  ++ (if hasDreamProps r then []
      else [js "Include Dream11-specific properties like source, roundId, tourId when relevant"])
  ++ propsImprove r
  ++ confImprove r
  ++ (if hasUserIdProp r && hasTimestampProp r then []
      else [js "Include user_id and timestamp in global properties"])
  ++ (if hasContextProps r then []
      else [js "Add contextual properties like source and section for better tracking"])

/-- `assessAnalysisQuality`: base score `0.5`, additive bonuses for the
seven heuristics, clamped to `1.0`; unmet bonuses append improvement
suggestions. -/
def assessAnalysisQuality (r : JResultR) : AssessResult :=
  ⟨assessScore r, assessFeedback r, assessImprove r⟩

/-- The domain-knowledge map entries produced by seeding (insertion order,
one entry per seed id). -/
def seedAssoc : List (JStr × DomainKnowledge) := seedKnowledge.map (fun k => (k.id, k))

/-- The states a `RAGService` instance can actually be in: freshly
initialized from some persisted snapshot, or reached from such a state by
ingesting feedback. -/
inductive ReachableRAG : RAGState → Prop where
  | init (stored : Option StoredData) : ReachableRAG (initializeKnowledgeBase stored)
  | step (st : RAGState) (fb : UserFeedback) (now : ℚ) :
      ReachableRAG st → ReachableRAG (learnFromFeedback st fb now)

/-- The `name` member of a parsed property value (`undefined` when absent). -/
def propName (p : JVal) : JVal := (getField p (js "name")).getD (.undef)

/-- The confidence score the feedback loop sees for a category pattern:
the stored score, or the `0.5` a freshly created pattern starts from. -/
def patConf (pats : List (JStr × Pattern)) (pid : JStr) : ℚ :=
  match assocGet pats pid with
  | none => 1/2
  | some p => p.confidenceScore

/-- The usage count the feedback loop sees for a category pattern (a fresh
pattern starts at `0`). -/
def patUsage (pats : List (JStr × Pattern)) (pid : JStr) : ℚ :=
  match assocGet pats pid with
  | none => 0
  | some p => p.usageCount

/-- Ingest a sequence of feedback records (each with its submission time). -/
def ingestAll (st : RAGState) (fbs : List (UserFeedback × ℚ)) : RAGState :=
  fbs.foldl (fun s q => learnFromFeedback s q.1 q.2) st

/-- The corrected event of the feedback-learning scenario: `"clk"` renamed to
`"bannerClicked"` under category `user_action`. -/
def evD : AEvent :=
  ⟨js "event_1", js "bannerClicked", js "banner", none, [], [], [], 9/10,
   js "user_action"⟩

/-- The feedback record of the feedback-learning scenario. -/
def fbD : UserFeedback :=
  ⟨js "a1", [evD], js "", 1, 0, ⟨[], [(js "clk", js "bannerClicked")], []⟩⟩

/-- The trailing-whitespace-trimmed form of a string (what `trim` leaves of
a payload that has no leading whitespace). -/
def rtrimWs (s : JStr) : JStr := (s.reverse.dropWhile isJsWs).reverse

/-! ## Claim theorems -/

/-- C1: `analyzeScreenshots` is total: whenever the selected provider has no
API key, or the backend call throws, or response parsing fails in any way,
it returns the deterministic mock `AnalysisResult` — which has exactly 6
events and aggregate confidence `0.88` — rather than propagating any error
to the caller. -/
theorem analyzeScreenshots_total_mock_fallback (cfg : Option AIConfig)
    (now : JStr) (shots : List ScreenshotData) (backend : Except Unit JStr)
    (h : (getApiConfig cfg).apiKey = [] ∨ backend = .error () ∨
         ∃ t, backend = .ok t ∧ parsePipeline now shots (cleanResponse t) = none) :
    analyzeScreenshots cfg now shots backend = generateMockAnalysis shots ∧
    (generateMockAnalysis shots).events.length = 6 ∧
    (generateMockAnalysis shots).confidence = .num (22/25) := by
  refine ⟨?_, rfl, rfl⟩
  unfold analyzeScreenshots
  dsimp only
  rcases h with hk | hb | ⟨t, hbt, hp⟩
  · simp [hk]
  · subst hb
    split_ifs <;> rfl
  · subst hbt
    have hpar : parseAIResponse now t shots = generateMockAnalysis shots := by
      unfold parseAIResponse
      rw [hp]
    split_ifs <;> first | exact hpar | rfl

/-- Witness for C1 at a concrete input: no configuration at all. -/
theorem analyzeScreenshots_total_mock_fallback_witness :
    analyzeScreenshots none [] [] (.error ()) = generateMockAnalysis [] ∧
    (generateMockAnalysis ([] : List ScreenshotData)).events.length = 6 ∧
    (generateMockAnalysis ([] : List ScreenshotData)).confidence = .num (22/25) :=
  analyzeScreenshots_total_mock_fallback none [] [] (.error ()) (Or.inl rfl)

/-- C4: parsing the raw text `{"events": [ {"name":"y"}, ]}` — an object
whose array has a trailing comma — fails strict `JSON.parse` on the
extracted content, succeeds after the syntactic-repair step, and yields
exactly one `Event` named `"y"`. -/
theorem parse_trailing_comma_repaired :
    (jsonParse (extractJsonContent (cleanResponse
        (js "\x7b\"events\": [ \x7b\"name\":\"y\"\x7d, ]\x7d")))).isSome = false ∧
    (parseAIResponse [] (js "\x7b\"events\": [ \x7b\"name\":\"y\"\x7d, ]\x7d") []).events.length = 1 ∧
    ((parseAIResponse [] (js "\x7b\"events\": [ \x7b\"name\":\"y\"\x7d, ]\x7d") []).events.map
      (fun e => e.name)) = [.str (js "y")] := by
  refine ⟨?_, ?_, ?_⟩ <;> rfl

theorem obind_eq_some {α β : Type} (x : Option α) (f : α → Option β) (b : β) :
    (x >>= f) = some b ↔ ∃ a, x = some a ∧ f a = some b := by
  cases x <;> simp

theorem convProp_name (p : JVal) (q : EvProp) (h : convProp p = some q) :
    q.name = propName p := by
  unfold convProp at h
  obtain ⟨n, hn, h⟩ := (obind_eq_some _ _ _).mp h
  obtain ⟨t, -, h⟩ := (obind_eq_some _ _ _).mp h
  obtain ⟨src, -, h⟩ := (obind_eq_some _ _ _).mp h
  obtain ⟨req, -, h⟩ := (obind_eq_some _ _ _).mp h
  obtain ⟨ex, -, h⟩ := (obind_eq_some _ _ _).mp h
  obtain ⟨d, -, h⟩ := (obind_eq_some _ _ _).mp h
  simp only [Option.some.injEq] at h
  subst h
  simp [propName, hn]

theorem mapOption_convProp_names (ps : List JVal) :
    ∀ l, mapOption convProp ps = some l →
    l.map (fun q => q.name) = ps.map propName := by
  induction ps with
  | nil =>
      intro l h
      simp only [mapOption, Option.some.injEq] at h
      subst h
      simp
  | cons p rest ih =>
      intro l h
      unfold mapOption at h
      obtain ⟨q, hq, h⟩ := (obind_eq_some _ _ _).mp h
      obtain ⟨qs, hqs, h⟩ := (obind_eq_some _ _ _).mp h
      simp only [Option.some.injEq] at h
      subst h
      simp only [List.map_cons]
      rw [convProp_name p q hq, ih qs hqs]

theorem convertEvent_id (i : Nat) (ev : JVal) (e : AnalyticsEvent)
    (h : convertEvent i ev = some e) : e.id = js "event_" ++ natDigits (i + 1) := by
  unfold convertEvent at h
  obtain ⟨a1, -, h⟩ := (obind_eq_some _ _ _).mp h
  obtain ⟨a2, -, h⟩ := (obind_eq_some _ _ _).mp h
  obtain ⟨a3, -, h⟩ := (obind_eq_some _ _ _).mp h
  obtain ⟨a4, -, h⟩ := (obind_eq_some _ _ _).mp h
  obtain ⟨a5, -, h⟩ := (obind_eq_some _ _ _).mp h
  obtain ⟨a6, -, h⟩ := (obind_eq_some _ _ _).mp h
  obtain ⟨a7, -, h⟩ := (obind_eq_some _ _ _).mp h
  obtain ⟨a8, -, h⟩ := (obind_eq_some _ _ _).mp h
  obtain ⟨a9, -, h⟩ := (obind_eq_some _ _ _).mp h
  simp only [Option.some.injEq] at h
  subst h
  rfl

theorem convertEvent_props (i : Nat) (ev : JVal) (e : AnalyticsEvent) (ps : List JVal)
    (h : convertEvent i ev = some e)
    (hp : getField ev (js "properties") = some (JVal.arr ps)) :
    e.properties.map (fun q => q.name) = ps.map propName := by
  unfold convertEvent at h
  obtain ⟨a1, -, h⟩ := (obind_eq_some _ _ _).mp h
  obtain ⟨a2, -, h⟩ := (obind_eq_some _ _ _).mp h
  obtain ⟨a3, -, h⟩ := (obind_eq_some _ _ _).mp h
  obtain ⟨a4, ha4, h⟩ := (obind_eq_some _ _ _).mp h
  rw [hp] at ha4
  simp only [Option.some.injEq] at ha4
  subst ha4
  obtain ⟨props, hpr, h⟩ := (obind_eq_some _ _ _).mp h
  have hpr2 : mapOption convProp ps = some props := hpr
  obtain ⟨a6, -, h⟩ := (obind_eq_some _ _ _).mp h
  obtain ⟨a7, -, h⟩ := (obind_eq_some _ _ _).mp h
  obtain ⟨a8, -, h⟩ := (obind_eq_some _ _ _).mp h
  obtain ⟨a9, -, h⟩ := (obind_eq_some _ _ _).mp h
  simp only [Option.some.injEq] at h
  subst h
  exact mapOption_convProp_names ps props hpr2

theorem convertEvents_ids (evs : List JVal) :
    ∀ i l, convertEvents i evs = some l →
    l.map (fun e => e.id) =
      (List.range' (i + 1) evs.length).map (fun m => js "event_" ++ natDigits m) := by
  induction evs with
  | nil =>
      intro i l h
      simp only [convertEvents, Option.some.injEq] at h
      subst h
      simp
  | cons ev rest ih =>
      intro i l h
      unfold convertEvents at h
      obtain ⟨e, he, h⟩ := (obind_eq_some _ _ _).mp h
      obtain ⟨es, hes, h⟩ := (obind_eq_some _ _ _).mp h
      simp only [Option.some.injEq] at h
      subst h
      simp only [List.map_cons, List.length_cons, List.range'_succ]
      rw [convertEvent_id i ev e he, ih (i + 1) es hes]

theorem eventId_injective :
    Function.Injective (fun m => js "event_" ++ natDigits m) := by
  intro a b hab
  simp only at hab
  exact natDigits_injective (List.append_cancel_left hab)

theorem convertEvents_ids_nodup (evs : List JVal) (i : Nat) (l : List AnalyticsEvent)
    (h : convertEvents i evs = some l) : (l.map (fun e => e.id)).Nodup := by
  rw [convertEvents_ids evs i l h]
  exact (List.nodup_range' _ _).map eventId_injective

theorem convertEvents_props_nodup (evs : List JVal) :
    ∀ i l, convertEvents i evs = some l →
    (∀ ev ∈ evs, ∃ ps, getField ev (js "properties") = some (JVal.arr ps) ∧
      (ps.map propName).Nodup) →
    ∀ e ∈ l, (e.properties.map (fun q => q.name)).Nodup := by
  induction evs with
  | nil =>
      intro i l h hprops e he
      simp only [convertEvents, Option.some.injEq] at h
      subst h
      simp at he
  | cons ev rest ih =>
      intro i l h hprops e he
      unfold convertEvents at h
      obtain ⟨e0, he0, h⟩ := (obind_eq_some _ _ _).mp h
      obtain ⟨es, hes, h⟩ := (obind_eq_some _ _ _).mp h
      simp only [Option.some.injEq] at h
      subst h
      rcases List.mem_cons.mp he with he1 | he1
      · subst he1
        obtain ⟨ps, hps, hnd⟩ := hprops ev (List.mem_cons_self _ _)
        rw [convertEvent_props i ev e ps he0 hps]
        exact hnd
      · exact ih (i + 1) es hes (fun x hx => hprops x (List.mem_cons_of_mem _ hx)) e he1

theorem convertParsed_events (now : JStr) (shots : List ScreenshotData)
    (v : JVal) (r : JourneyAnalysisResult) (h : convertParsed now shots v = some r) :
    ∃ allEv l, allEventsOf v = some allEv ∧ convertEvents 0 allEv = some l ∧
      r.events = l := by
  unfold convertParsed at h
  obtain ⟨allEv, hall, h⟩ := (obind_eq_some _ _ _).mp h
  obtain ⟨l, hl, h⟩ := (obind_eq_some _ _ _).mp h
  obtain ⟨g, -, h⟩ := (obind_eq_some _ _ _).mp h
  obtain ⟨cp, -, h⟩ := (obind_eq_some _ _ _).mp h
  obtain ⟨ts, -, h⟩ := (obind_eq_some _ _ _).mp h
  obtain ⟨r0, -, h⟩ := (obind_eq_some _ _ _).mp h
  obtain ⟨c0, -, h⟩ := (obind_eq_some _ _ _).mp h
  simp only [Option.some.injEq] at h
  subst h
  exact ⟨allEv, l, hall, hl, rfl⟩

theorem convertEvents_get (evs : List JVal) :
    ∀ i l, convertEvents i evs = some l →
    l.length = evs.length ∧
    ∀ k (hk : k < l.length) (hk2 : k < evs.length),
      convertEvent (i + k) (evs.get ⟨k, hk2⟩) = some (l.get ⟨k, hk⟩) := by
  induction evs with
  | nil =>
      intro i l h
      simp only [convertEvents, Option.some.injEq] at h
      subst h
      refine ⟨rfl, ?_⟩
      intro k hk
      exact absurd hk (by simp)
  | cons ev rest ih =>
      intro i l h
      unfold convertEvents at h
      obtain ⟨e, he, h⟩ := (obind_eq_some _ _ _).mp h
      obtain ⟨es, hes, h⟩ := (obind_eq_some _ _ _).mp h
      simp only [Option.some.injEq] at h
      subst h
      obtain ⟨ihlen, ihget⟩ := ih (i + 1) es hes
      refine ⟨by simp [ihlen], ?_⟩
      intro k hk hk2
      cases k with
      | zero => exact he
      | succ m =>
          have hm : m < es.length := by simpa using hk
          have hm2 : m < rest.length := by simpa using hk2
          have hx := ihget m hm hm2
          rw [show i + (m + 1) = i + 1 + m from by omega]
          exact hx

theorem parsePipeline_some (now : JStr) (shots : List ScreenshotData)
    (cleaned : JStr) (r : JourneyAnalysisResult)
    (h : parsePipeline now shots cleaned = some r) :
    ∃ v, jsonParse (if (jsonParse (extractJsonContent cleaned)).isSome
        then extractJsonContent cleaned
        else repairJson (extractJsonContent cleaned)) = some v ∧
      convertParsed now shots v = some r := by
  unfold parsePipeline at h
  dsimp only at h
  cases hv : jsonParse (if (jsonParse (extractJsonContent cleaned)).isSome
      then extractJsonContent cleaned
      else repairJson (extractJsonContent cleaned)) with
  | none =>
      rw [hv] at h
      simp at h
  | some v =>
      rw [hv] at h
      exact ⟨v, rfl, h⟩

/-- C3 (amended): every `Event` of every parse result receives a unique id;
for every raw text whose parse pipeline succeeds — in any of the three
accepted response shapes, which `allEventsOf` flattens to the event-object
list — each output event's property names are copied through positionally
from its source object's `properties` array without deduplication, so they
are pairwise distinct exactly when the source array's names are. -/
theorem parse_event_ids_unique_props_conditional :
    (∀ now t shots,
      ((parseAIResponse now t shots).events.map (fun e => e.id)).Nodup) ∧
    (∀ now t shots r, parsePipeline now shots (cleanResponse t) = some r →
      ∃ v allEv,
        jsonParse (if (jsonParse (extractJsonContent (cleanResponse t))).isSome
          then extractJsonContent (cleanResponse t)
          else repairJson (extractJsonContent (cleanResponse t))) = some v ∧
        allEventsOf v = some allEv ∧
        r.events.length = allEv.length ∧
        (∀ i (hi : i < r.events.length) (hj : i < allEv.length)
          (ps : List JVal),
          getField (allEv.get ⟨i, hj⟩) (js "properties")
            = some (JVal.arr ps) →
          (r.events.get ⟨i, hi⟩).properties.map (fun q => q.name)
            = ps.map propName ∧
          (((r.events.get ⟨i, hi⟩).properties.map (fun q => q.name)).Nodup
            ↔ (ps.map propName).Nodup))) := by
  constructor
  · intro now t shots
    unfold parseAIResponse
    cases hp : parsePipeline now shots (cleanResponse t) with
    | none => exact (by decide : (List.map (fun e => e.id) mockEvents).Nodup)
    | some r =>
        unfold parsePipeline at hp
        dsimp only at hp
        split at hp
        · obtain ⟨allEv, l, -, hl, hev⟩ := convertParsed_events _ _ _ _ hp
          rw [hev]
          exact convertEvents_ids_nodup _ _ _ hl
        · exact absurd hp (by simp)
  · intro now t shots r h
    obtain ⟨v, hv, hconv⟩ := parsePipeline_some now shots (cleanResponse t) r h
    obtain ⟨allEv, l, hall, hl, hev⟩ := convertParsed_events now shots v r hconv
    subst hev
    obtain ⟨hlen, hget⟩ := convertEvents_get allEv 0 r.events hl
    refine ⟨v, allEv, hv, hall, hlen, ?_⟩
    intro i hi hj ps hps
    have hx := hget i hi hj
    have hnames := convertEvent_props (0 + i) (allEv.get ⟨i, hj⟩)
      (r.events.get ⟨i, hi⟩) ps hx hps
    exact ⟨hnames, by rw [hnames]⟩

/-- Witness for the amended C3 at a concrete input: one event with an empty
property list. -/
theorem parse_event_ids_unique_props_conditional_witness :
    (((parseAIResponse []
        (js "\x7b\"events\":[\x7b\"name\":\"x\",\"properties\":[]\x7d]\x7d")
        []).events.map (fun e => e.id)).Nodup) ∧
    (∃ r, parsePipeline [] [] (cleanResponse
        (js "\x7b\"events\":[\x7b\"name\":\"x\",\"properties\":[]\x7d]\x7d"))
        = some r ∧
      ∃ v allEv,
        jsonParse (if (jsonParse (extractJsonContent (cleanResponse
            (js "\x7b\"events\":[\x7b\"name\":\"x\",\"properties\":[]\x7d]\x7d")))).isSome
          then extractJsonContent (cleanResponse
            (js "\x7b\"events\":[\x7b\"name\":\"x\",\"properties\":[]\x7d]\x7d"))
          else repairJson (extractJsonContent (cleanResponse
            (js "\x7b\"events\":[\x7b\"name\":\"x\",\"properties\":[]\x7d]\x7d"))))
          = some v ∧
        allEventsOf v = some allEv ∧
        r.events.length = allEv.length ∧
        (∀ i (hi : i < r.events.length) (hj : i < allEv.length)
          (ps : List JVal),
          getField (allEv.get ⟨i, hj⟩) (js "properties")
            = some (JVal.arr ps) →
          (r.events.get ⟨i, hi⟩).properties.map (fun q => q.name)
            = ps.map propName ∧
          (((r.events.get ⟨i, hi⟩).properties.map (fun q => q.name)).Nodup
            ↔ (ps.map propName).Nodup))) := by
  constructor
  · exact parse_event_ids_unique_props_conditional.1 []
      (js "\x7b\"events\":[\x7b\"name\":\"x\",\"properties\":[]\x7d]\x7d") []
  · obtain ⟨r, hr⟩ : ∃ r, parsePipeline [] [] (cleanResponse
        (js "\x7b\"events\":[\x7b\"name\":\"x\",\"properties\":[]\x7d]\x7d"))
        = some r := ⟨_, rfl⟩
    exact ⟨r, hr, parse_event_ids_unique_props_conditional.2 []
      (js "\x7b\"events\":[\x7b\"name\":\"x\",\"properties\":[]\x7d]\x7d") [] r hr⟩

/-- Counterexample to C3 as stated: the raw text
`{"events":[{"name":"x","properties":[{"name":"a"},{"name":"a"}]}]}` parses
to an event whose property names are `a, a` — not pairwise distinct. -/
theorem parse_duplicate_property_names_counterexample :
    ∃ e ∈ (parseAIResponse []
      (js "\x7b\"events\":[\x7b\"name\":\"x\",\"properties\":[\x7b\"name\":\"a\"\x7d,\x7b\"name\":\"a\"\x7d]\x7d]\x7d")
      []).events,
      ¬ ((e.properties.map (fun q => q.name)).Pairwise (fun a b => a ≠ b)) := by
  have h : (parseAIResponse []
      (js "\x7b\"events\":[\x7b\"name\":\"x\",\"properties\":[\x7b\"name\":\"a\"\x7d,\x7b\"name\":\"a\"\x7d]\x7d]\x7d")
      []).events.map (fun e => e.properties.map (fun q => q.name)) =
      [[.str (js "a"), .str (js "a")]] := by rfl
  cases hev : (parseAIResponse []
      (js "\x7b\"events\":[\x7b\"name\":\"x\",\"properties\":[\x7b\"name\":\"a\"\x7d,\x7b\"name\":\"a\"\x7d]\x7d]\x7d")
      []).events with
  | nil => rw [hev] at h; simp at h
  | cons e t =>
      cases t with
      | nil =>
          refine ⟨e, List.mem_singleton.mpr rfl, ?_⟩
          rw [hev] at h
          simp only [List.map_cons, List.map_nil, List.cons.injEq, and_true] at h
          rw [h]
          intro hp
          exact (List.pairwise_cons.mp hp).1 _ (by simp) rfl
      | cons b t2 => rw [hev] at h; simp at h

theorem assocGet_set {α : Type} (m : List (JStr × α)) (k n : JStr) (v : α) :
    assocGet (assocSet m k v) n = if n = k then some v else assocGet m n := by
  induction m with
  | nil =>
      by_cases h : n = k
      · subst h; simp [assocSet, assocGet]
      · have h2 : ¬ (k = n) := fun hc => h hc.symm
        simp [assocSet, assocGet, h, h2]
  | cons kv rest ih =>
      obtain ⟨k0, v0⟩ := kv
      by_cases h0 : k0 = k
      · subst h0
        by_cases h : k0 = n
        · subst h; simp [assocSet, assocGet]
        · have h2 : ¬ (n = k0) := fun hc => h hc.symm
          simp [assocSet, assocGet, h, h2]
      · by_cases h : k0 = n
        · have hnk : ¬ (n = k) := fun hc => h0 (h.trans hc)
          simp [assocSet, assocGet, h0, h, hnk]
        · simp [assocSet, assocGet, h0, h, ih]

theorem boostsInnerFold (v : ℚ) (ens : List JStr) :
    ∀ (boosts : List (JStr × ℚ)) n b,
    assocGet (ens.foldl (fun b2 en => assocSet b2 en v) boosts) n = some b →
    assocGet boosts n = some b ∨ (n ∈ ens ∧ b = v) := by
  induction ens with
  | nil => intro boosts n b h; exact Or.inl h
  | cons en rest ih =>
      intro boosts n b h
      simp only [List.foldl_cons] at h
      rcases ih (assocSet boosts en v) n b h with h1 | h1
      · rw [assocGet_set] at h1
        by_cases hn : n = en
        · simp [hn] at h1
          exact Or.inr ⟨by simp [hn], h1.symm⟩
        · simp [hn] at h1
          exact Or.inl h1
      · exact Or.inr ⟨List.mem_cons_of_mem _ h1.1, h1.2⟩

theorem boostsOuterFold (pats : List Pattern) :
    ∀ (acc : List (JStr × ℚ)) n b,
    assocGet (pats.foldl
      (fun boosts p => p.commonEvents.foldl
        (fun b2 en => assocSet b2 en (jsMin (1/5) (p.confidenceScore * (1/5)))) boosts)
      acc) n = some b →
    assocGet acc n = some b ∨
      ∃ p ∈ pats, n ∈ p.commonEvents ∧ b = jsMin (1/5) (p.confidenceScore * (1/5)) := by
  induction pats with
  | nil => intro acc n b h; exact Or.inl h
  | cons p rest ih =>
      intro acc n b h
      simp only [List.foldl_cons] at h
      rcases ih _ n b h with h1 | h1
      · rcases boostsInnerFold _ _ _ _ _ h1 with h2 | h2
        · exact Or.inl h2
        · exact Or.inr ⟨p, List.mem_cons_self _ _, h2.1, h2.2⟩
      · obtain ⟨q, hq, h2, h3⟩ := h1
        exact Or.inr ⟨q, List.mem_cons_of_mem _ hq, h2, h3⟩

/-- C7 (amended): every value in the map returned by
`calculateConfidenceBoosts` equals `min(0.2, confidenceScore * 0.2)` for
some input pattern listing that event, and never exceeds the cap `0.2`; it
is nonnegative (hence within `[0, 0.2]`) whenever all input
confidence scores are nonnegative. -/
theorem calculateConfidenceBoosts_spec (ps : List Pattern) (n : JStr) (b : ℚ)
    (h : assocGet (calculateConfidenceBoosts ps) n = some b) :
    b ≤ 1/5 ∧
    (∃ p ∈ ps, n ∈ p.commonEvents ∧ b = min (1/5) (p.confidenceScore * (1/5))) ∧
    ((∀ p ∈ ps, 0 ≤ p.confidenceScore) → 0 ≤ b) := by
  unfold calculateConfidenceBoosts at h
  rcases boostsOuterFold ps [] n b h with h1 | h1
  · simp [assocGet] at h1
  · obtain ⟨p, hp, hn, hb⟩ := h1
    rw [jsMin_eq_min] at hb
    refine ⟨by rw [hb]; exact min_le_left _ _, ⟨p, hp, hn, hb⟩, ?_⟩
    intro hpos
    rw [hb]
    have h2 : 0 ≤ p.confidenceScore * (1/5) := by
      have := hpos p hp
      positivity
    exact le_min (by norm_num) h2

/-- Witness for C7 at a concrete input: one pattern with confidence `0.75`. -/
theorem calculateConfidenceBoosts_spec_witness :
    (3/20 : ℚ) ≤ 1/5 ∧
    (∃ p ∈ [(⟨js "p1", js "c", [js "e"], [], 3/4, 0, 0⟩ : Pattern)],
      js "e" ∈ p.commonEvents ∧
      (3/20 : ℚ) = min (1/5) (p.confidenceScore * (1/5))) ∧
    ((∀ p ∈ [(⟨js "p1", js "c", [js "e"], [], 3/4, 0, 0⟩ : Pattern)],
      0 ≤ p.confidenceScore) → (0:ℚ) ≤ 3/20) :=
  calculateConfidenceBoosts_spec
    [⟨js "p1", js "c", [js "e"], [], 3/4, 0, 0⟩] (js "e") (3/20) (by
      unfold calculateConfidenceBoosts
      simp only [List.foldl_cons, List.foldl_nil]
      rw [assocGet_set, if_pos rfl, jsMin]
      norm_num)

/-- Counterexample to C7 as stated: a pattern with confidenceScore `-1`
yields the boost `-0.2`, which lies outside `[0, 0.2]`. -/
theorem calculateConfidenceBoosts_negative_counterexample :
    assocGet (calculateConfidenceBoosts
      [⟨js "p1", js "c", [js "e"], [], -1, 0, 0⟩]) (js "e") = some (-(1/5)) ∧
    ¬ ((0:ℚ) ≤ -(1/5)) := by
  constructor
  · unfold calculateConfidenceBoosts
    simp only [List.foldl_cons, List.foldl_nil]
    rw [assocGet_set, if_pos rfl, jsMin]
    norm_num
  · norm_num

/-- C9 (amended): initialization loads the persisted feedback history and
patterns but builds a fresh, empty in-memory vector store — it does not
index the loaded feedback.  A document enters the store only when new
feedback is ingested: each `learnFromFeedback` stores exactly the summary
document for its feedback under the analysis id. -/
theorem initializeKnowledgeBase_vector_store_empty :
    (∀ stored, (initializeKnowledgeBase stored).vectorDocs = [] ∧
      (initializeKnowledgeBase stored).feedbackHistory =
        (match stored with | none => [] | some d => d.feedback)) ∧
    (∀ st fb now,
      assocGet (learnFromFeedback st fb now).vectorDocs fb.analysisId =
        some ⟨feedbackContent fb, ⟨js "feedback", fb.confidence, fb.timestamp⟩,
              simpleEmbedding (feedbackContent fb)⟩) := by
  constructor
  · intro stored
    cases stored <;> exact ⟨rfl, rfl⟩
  · intro st fb now
    unfold learnFromFeedback indexFeedback addDocument
    rw [assocGet_set, if_pos rfl]

/-- Counterexample to C9 as stated: initializing from a persisted snapshot
holding one feedback record leaves the vector store with zero documents,
not one per loaded record. -/
theorem initializeKnowledgeBase_no_reindex_counterexample :
    (initializeKnowledgeBase
      (some ⟨[⟨js "a1", [], [], 1/2, 0, ⟨[], [], []⟩⟩], []⟩)).feedbackHistory.length = 1 ∧
    (initializeKnowledgeBase
      (some ⟨[⟨js "a1", [], [], 1/2, 0, ⟨[], [], []⟩⟩], []⟩)).vectorDocs.length = 0 ∧
    (initializeKnowledgeBase
      (some ⟨[⟨js "a1", [], [], 1/2, 0, ⟨[], [], []⟩⟩], []⟩)).vectorDocs.length ≠
    (initializeKnowledgeBase
      (some ⟨[⟨js "a1", [], [], 1/2, 0, ⟨[], [], []⟩⟩], []⟩)).feedbackHistory.length := by
  refine ⟨rfl, rfl, ?_⟩
  intro h
  simp [initializeKnowledgeBase, loadHistoricalData] at h

theorem insertPatDesc_perm (x : Pattern) (l : List Pattern) :
    List.Perm (insertPatDesc x l) (x :: l) := by
  induction l with
  | nil => simp [insertPatDesc]
  | cons y ys ih =>
      unfold insertPatDesc
      by_cases h : x.confidenceScore > y.confidenceScore
      · simp [h]
      · simp only [h, if_false]
        exact (ih.cons y).trans (List.Perm.swap x y ys)

theorem sortPatDesc_perm (l : List Pattern) : List.Perm (sortPatDesc l) l := by
  induction l with
  | nil => simp [sortPatDesc]
  | cons x xs ih =>
      unfold sortPatDesc
      exact (insertPatDesc_perm x (sortPatDesc xs)).trans (ih.cons x)

theorem mem_insertPatDesc {x y : Pattern} {l : List Pattern} :
    y ∈ insertPatDesc x l ↔ y = x ∨ y ∈ l := by
  rw [(insertPatDesc_perm x l).mem_iff, List.mem_cons]

theorem pairwise_insertPatDesc (x : Pattern) (l : List Pattern)
    (h : l.Pairwise (fun a b => b.confidenceScore ≤ a.confidenceScore)) :
    (insertPatDesc x l).Pairwise
      (fun a b => b.confidenceScore ≤ a.confidenceScore) := by
  induction l with
  | nil => simp [insertPatDesc]
  | cons y ys ih =>
      rw [List.pairwise_cons] at h
      unfold insertPatDesc
      by_cases hc : x.confidenceScore > y.confidenceScore
      · simp only [hc, if_true]
        rw [List.pairwise_cons]
        constructor
        · intro z hz
          rcases List.mem_cons.mp hz with h1 | h1
          · subst h1; exact le_of_lt hc
          · exact le_trans (h.1 z h1) (le_of_lt hc)
        · exact List.pairwise_cons.mpr h
      · simp only [hc, if_false]
        rw [List.pairwise_cons]
        constructor
        · intro z hz
          rcases mem_insertPatDesc.mp hz with h1 | h1
          · subst h1; exact le_of_not_lt hc
          · exact h.1 z h1
        · exact ih h.2

theorem sortPatDesc_pairwise (l : List Pattern) :
    (sortPatDesc l).Pairwise (fun a b => b.confidenceScore ≤ a.confidenceScore) := by
  induction l with
  | nil => simp [sortPatDesc]
  | cons x xs ih => exact pairwise_insertPatDesc x _ ih

theorem assocSet_append {α : Type} (a b : List (JStr × α)) (k : JStr) (v : α)
    (h : ∀ p ∈ a, p.1 ≠ k) : assocSet (a ++ b) k v = a ++ assocSet b k v := by
  induction a with
  | nil => simp
  | cons p0 rest ih =>
      obtain ⟨k0, v0⟩ := p0
      have hk0 : k0 ≠ k := h (k0, v0) (List.mem_cons_self _ _)
      simp only [List.cons_append, assocSet, hk0, if_false, List.append_eq]
      rw [ih (fun p hp => h p (List.mem_cons_of_mem _ hp))]

theorem mem_assocSet {α : Type} (m : List (JStr × α)) (k : JStr) (v : α) :
    ∀ p ∈ assocSet m k v, p.1 = k ∨ p ∈ m := by
  induction m with
  | nil =>
      intro p hp
      simp [assocSet] at hp
      subst hp
      exact Or.inl rfl
  | cons p0 rest ih =>
      obtain ⟨k0, v0⟩ := p0
      intro p hp
      unfold assocSet at hp
      by_cases h0 : k0 = k
      · simp only [h0, if_true] at hp
        rcases List.mem_cons.mp hp with h1 | h1
        · subst h1; exact Or.inl rfl
        · exact Or.inr (List.mem_cons_of_mem _ h1)
      · simp only [h0, if_false] at hp
        rcases List.mem_cons.mp hp with h1 | h1
        · subst h1; exact Or.inr (List.mem_cons_self _ _)
        · rcases ih p h1 with h2 | h2
          · exact Or.inl h2
          · exact Or.inr (List.mem_cons_of_mem _ h2)

theorem seedAssoc_headI : ∀ p ∈ seedAssoc, List.headI p.1 ≠ 'n' := by decide

theorem updateDK_invariant (chs : List (JStr × JStr)) :
    ∀ (rest : List (JStr × DomainKnowledge)),
    (∀ p ∈ rest, List.headI p.1 = 'n') →
    ∃ rest2,
      chs.foldl
        (fun m p =>
          assocSet m (js "naming_" ++ p.2)
            ⟨js "naming_" ++ p.2, js "event_naming",
             js "Event Naming: " ++ p.2,
             js "Successful event name correction from " ++ p.1 ++ js " to " ++ p.2,
             [JVal.obj [(js "old", .str p.1), (js "new", .str p.2)]],
             [js "all"], 9/10⟩)
        (seedAssoc ++ rest) = seedAssoc ++ rest2 ∧
      (∀ p ∈ rest2, List.headI p.1 = 'n') := by
  induction chs with
  | nil => intro rest hrest; exact ⟨rest, rfl, hrest⟩
  | cons ch rest2 ih =>
      intro rest hrest
      simp only [List.foldl_cons]
      have hkeys : ∀ p ∈ seedAssoc, p.1 ≠ js "naming_" ++ ch.2 := by
        intro p hp hc
        apply seedAssoc_headI p hp
        rw [hc]
        rfl
      rw [assocSet_append _ _ _ _ hkeys]
      apply ih
      intro p hp
      rcases mem_assocSet _ _ _ p hp with h1 | h1
      · rw [h1]; rfl
      · exact hrest p h1

theorem reachable_dk_prefix (st : RAGState) (h : ReachableRAG st) :
    ∃ rest, st.domainKnowledge = seedAssoc ++ rest ∧
      ∀ p ∈ rest, List.headI p.1 = 'n' := by
  induction h with
  | init stored => exact ⟨[], by rfl, by simp⟩
  | step st fb now hst ih =>
      obtain ⟨rest, hdk, hrest⟩ := ih
      show ∃ rest2, updateDomainKnowledge st.domainKnowledge fb = seedAssoc ++ rest2 ∧ _
      unfold updateDomainKnowledge
      rw [hdk]
      exact updateDK_invariant fb.improvements.eventNameChanges rest hrest

theorem seedFilter_all :
    (seedAssoc.map Prod.snd).filter (fun k => k.confidence > 4/5)
      = seedAssoc.map Prod.snd := by
  rw [List.filter_eq_self]
  intro a ha
  simp only [seedAssoc, seedKnowledge, List.map_cons, List.map_nil,
    List.mem_cons, List.not_mem_nil, or_false] at ha
  rcases ha with rfl | rfl | rfl | rfl | rfl | rfl | rfl | rfl <;>
    exact decide_eq_true (by norm_num)

theorem seedTake3_pairwise :
    ((seedAssoc.map Prod.snd).take 3).Pairwise
      (fun a b => b.confidence ≤ a.confidence) := by
  simp only [seedAssoc, seedKnowledge, List.map_cons, List.take,
    List.pairwise_cons, List.mem_cons, List.not_mem_nil, or_false,
    List.mem_singleton, List.Pairwise.nil]
  refine ⟨?_, ?_, fun a ha => ha.elim, trivial⟩
  · intro a ha
    rcases ha with rfl | rfl <;> norm_num
  · intro a ha
    rcases ha with rfl <;> norm_num

/-- **C5.** `retrieveRelevantPatterns` returns exactly the stored patterns
with confidence above the threshold `0.7` up to the cap of three — its
length is `min 3` of the number of qualifying patterns, every returned
pattern qualifies, a qualifying pattern is only ever left out when three
are already returned — in descending confidence order, and the returned
patterns dominate every qualifying pattern left out; on every reachable
state, `retrieveDomainKnowledge` analogously returns the qualifying
knowledge items (confidence above the higher threshold `0.8`) up to the
cap of three, in descending confidence order. -/
theorem retrievals_top3_thresholds (st : RAGState) (h : ReachableRAG st) :
    (retrieveRelevantPatterns st).length ≤ 3 ∧
    (∀ p ∈ retrieveRelevantPatterns st, p.confidenceScore > 7/10) ∧
    (retrieveRelevantPatterns st).Pairwise
      (fun a b => b.confidenceScore ≤ a.confidenceScore) ∧
    (∀ p ∈ st.analysisPatterns.map Prod.snd, p.confidenceScore > 7/10 →
      p ∉ retrieveRelevantPatterns st →
      ∀ q ∈ retrieveRelevantPatterns st, p.confidenceScore ≤ q.confidenceScore) ∧
    (retrieveDomainKnowledge st).length ≤ 3 ∧
    (∀ k ∈ retrieveDomainKnowledge st, k.confidence > 4/5) ∧
    (retrieveDomainKnowledge st).Pairwise
      (fun a b => b.confidence ≤ a.confidence) ∧
    (retrieveRelevantPatterns st).length
      = min 3 ((st.analysisPatterns.map Prod.snd).filter
          (fun p => p.confidenceScore > 7/10)).length ∧
    (∀ p ∈ st.analysisPatterns.map Prod.snd, p.confidenceScore > 7/10 →
      p ∉ retrieveRelevantPatterns st → (retrieveRelevantPatterns st).length = 3) ∧
    (retrieveDomainKnowledge st).length
      = min 3 ((st.domainKnowledge.map Prod.snd).filter
          (fun k => k.confidence > 4/5)).length := by
  refine ⟨?_, ?_, ?_, ?_, ?_, ?_, ?_, ?_, ?_, ?_⟩
  · exact List.length_take_le 3 _
  · intro p hp
    have hmem := List.take_subset 3 _ hp
    have hmem2 := (sortPatDesc_perm _).mem_iff.mp hmem
    exact of_decide_eq_true (List.mem_filter.mp hmem2).2
  · exact (sortPatDesc_pairwise _).sublist (List.take_sublist 3 _)
  · intro p hp hconf hnotin q hq
    have hpL : p ∈ sortPatDesc ((st.analysisPatterns.map Prod.snd).filter
        (fun p => p.confidenceScore > 7/10)) :=
      (sortPatDesc_perm _).mem_iff.mpr
        (List.mem_filter.mpr ⟨hp, decide_eq_true hconf⟩)
    rw [← List.take_append_drop 3 (sortPatDesc _)] at hpL
    rcases List.mem_append.mp hpL with h1 | h1
    · exact absurd h1 hnotin
    · have hpw := sortPatDesc_pairwise ((st.analysisPatterns.map Prod.snd).filter
        (fun p => p.confidenceScore > 7/10))
      rw [← List.take_append_drop 3 (sortPatDesc _)] at hpw
      exact (List.pairwise_append.mp hpw).2.2 q hq p h1
  · exact List.length_take_le 3 _
  · intro k hk
    have hmem := List.take_subset 3 _ hk
    exact of_decide_eq_true (List.mem_filter.mp hmem).2
  · obtain ⟨rest, hdk, _⟩ := reachable_dk_prefix st h
    unfold retrieveDomainKnowledge
    rw [hdk, List.map_append, List.filter_append, seedFilter_all,
      List.take_append_of_le_length (by simp [seedAssoc, seedKnowledge])]
    exact seedTake3_pairwise
  · unfold retrieveRelevantPatterns
    rw [List.length_take,
      (sortPatDesc_perm ((st.analysisPatterns.map Prod.snd).filter
        (fun p => p.confidenceScore > 7/10))).length_eq]
  · intro p hp hconf hnotin
    by_cases hlen : (sortPatDesc ((st.analysisPatterns.map Prod.snd).filter
        (fun p => p.confidenceScore > 7/10))).length ≤ 3
    · exfalso
      apply hnotin
      unfold retrieveRelevantPatterns
      rw [List.take_of_length_le hlen]
      exact (sortPatDesc_perm _).mem_iff.mpr
        (List.mem_filter.mpr ⟨hp, decide_eq_true hconf⟩)
    · unfold retrieveRelevantPatterns
      rw [List.length_take]
      omega
  · unfold retrieveDomainKnowledge
    rw [List.length_take]

theorem retrievals_top3_thresholds_witness :
    (retrieveRelevantPatterns (initializeKnowledgeBase none)).length ≤ 3 ∧
    (∀ p ∈ retrieveRelevantPatterns (initializeKnowledgeBase none),
      p.confidenceScore > 7/10) ∧
    (retrieveRelevantPatterns (initializeKnowledgeBase none)).Pairwise
      (fun a b => b.confidenceScore ≤ a.confidenceScore) ∧
    (∀ p ∈ (initializeKnowledgeBase none).analysisPatterns.map Prod.snd,
      p.confidenceScore > 7/10 →
      p ∉ retrieveRelevantPatterns (initializeKnowledgeBase none) →
      ∀ q ∈ retrieveRelevantPatterns (initializeKnowledgeBase none),
        p.confidenceScore ≤ q.confidenceScore) ∧
    (retrieveDomainKnowledge (initializeKnowledgeBase none)).length ≤ 3 ∧
    (∀ k ∈ retrieveDomainKnowledge (initializeKnowledgeBase none),
      k.confidence > 4/5) ∧
    (retrieveDomainKnowledge (initializeKnowledgeBase none)).Pairwise
      (fun a b => b.confidence ≤ a.confidence) ∧
    (retrieveRelevantPatterns (initializeKnowledgeBase none)).length
      = min 3 (((initializeKnowledgeBase none).analysisPatterns.map
          Prod.snd).filter (fun p => p.confidenceScore > 7/10)).length ∧
    (∀ p ∈ (initializeKnowledgeBase none).analysisPatterns.map Prod.snd,
      p.confidenceScore > 7/10 →
      p ∉ retrieveRelevantPatterns (initializeKnowledgeBase none) →
      (retrieveRelevantPatterns (initializeKnowledgeBase none)).length = 3) ∧
    (retrieveDomainKnowledge (initializeKnowledgeBase none)).length
      = min 3 (((initializeKnowledgeBase none).domainKnowledge.map
          Prod.snd).filter (fun k => k.confidence > 4/5)).length :=
  retrievals_top3_thresholds (initializeKnowledgeBase none) (ReachableRAG.init none)

theorem jsMin_one_le (y : ℚ) : jsMin 1 y ≤ 1 := by
  unfold jsMin
  split_ifs with h
  · exact le_refl 1
  · linarith [not_le.mp h]

theorem patConf_step (now : ℚ) (pats : List (JStr × Pattern)) (ev : AEvent) :
    patConf (updatePatternStep now pats ev) (ev.category ++ js "_pattern")
      = jsMin 1 (patConf pats (ev.category ++ js "_pattern") + 1/10) := by
  cases h : assocGet pats (ev.category ++ js "_pattern") with
  | none =>
      simp [patConf, updatePatternStep, h, assocGet_set,
        apply_ite Pattern.confidenceScore]
  | some p =>
      simp [patConf, updatePatternStep, h, assocGet_set,
        apply_ite Pattern.confidenceScore]

theorem patUsage_step (now : ℚ) (pats : List (JStr × Pattern)) (ev : AEvent) :
    patUsage (updatePatternStep now pats ev) (ev.category ++ js "_pattern")
      = patUsage pats (ev.category ++ js "_pattern") + 1 := by
  cases h : assocGet pats (ev.category ++ js "_pattern") with
  | none =>
      simp [patUsage, updatePatternStep, h, assocGet_set,
        apply_ite Pattern.usageCount]
  | some p =>
      simp [patUsage, updatePatternStep, h, assocGet_set,
        apply_ite Pattern.usageCount]

theorem patConf_learn (st : RAGState) (fb : UserFeedback) (now : ℚ) (ev : AEvent)
    (hev : fb.correctedEvents = [ev]) :
    patConf (learnFromFeedback st fb now).analysisPatterns
        (ev.category ++ js "_pattern")
      = jsMin 1 (patConf st.analysisPatterns (ev.category ++ js "_pattern") + 1/10) := by
  show patConf (updatePatternsFromFeedback now st.analysisPatterns fb) _ = _
  unfold updatePatternsFromFeedback
  rw [hev]
  simp only [List.foldl_cons, List.foldl_nil]
  exact patConf_step now st.analysisPatterns ev

theorem patUsage_learn (st : RAGState) (fb : UserFeedback) (now : ℚ) (ev : AEvent)
    (hev : fb.correctedEvents = [ev]) :
    patUsage (learnFromFeedback st fb now).analysisPatterns
        (ev.category ++ js "_pattern")
      = patUsage st.analysisPatterns (ev.category ++ js "_pattern") + 1 := by
  show patUsage (updatePatternsFromFeedback now st.analysisPatterns fb) _ = _
  unfold updatePatternsFromFeedback
  rw [hev]
  simp only [List.foldl_cons, List.foldl_nil]
  exact patUsage_step now st.analysisPatterns ev

theorem patConf_ingestAll (c : JStr) (fbs : List (UserFeedback × ℚ)) :
    ∀ st0 : RAGState,
    (∀ q ∈ fbs, ∃ ev, q.1.correctedEvents = [ev] ∧ ev.category = c) →
    patConf st0.analysisPatterns (c ++ js "_pattern") ≤ 1 →
    patConf (ingestAll st0 fbs).analysisPatterns (c ++ js "_pattern")
      = jsMin 1 (patConf st0.analysisPatterns (c ++ js "_pattern")
          + (fbs.length : ℚ)/10) := by
  induction fbs with
  | nil =>
      intro st0 _ hc0
      show patConf st0.analysisPatterns _ = _
      simp only [List.length_nil, Nat.cast_zero, zero_div, add_zero]
      unfold jsMin
      split_ifs with h
      · linarith
      · rfl
  | cons q rest ih =>
      intro st0 hfb hc0
      obtain ⟨ev, hev, hcat⟩ := hfb q (List.mem_cons_self _ _)
      have hstep : patConf (learnFromFeedback st0 q.1 q.2).analysisPatterns
          (c ++ js "_pattern")
          = jsMin 1 (patConf st0.analysisPatterns (c ++ js "_pattern") + 1/10) := by
        rw [← hcat]
        exact patConf_learn st0 q.1 q.2 ev hev
      have hcons : ingestAll st0 (q :: rest)
          = ingestAll (learnFromFeedback st0 q.1 q.2) rest := rfl
      rw [hcons, ih (learnFromFeedback st0 q.1 q.2)
        (fun r hr => hfb r (List.mem_cons_of_mem _ hr))
        (hstep ▸ jsMin_one_le _), hstep]
      have hn : (0:ℚ) ≤ (rest.length : ℚ) := Nat.cast_nonneg _
      simp only [List.length_cons, Nat.cast_add, Nat.cast_one]
      unfold jsMin
      split_ifs <;> linarith

theorem patUsage_ingestAll (c : JStr) (fbs : List (UserFeedback × ℚ)) :
    ∀ st0 : RAGState,
    (∀ q ∈ fbs, ∃ ev, q.1.correctedEvents = [ev] ∧ ev.category = c) →
    patUsage (ingestAll st0 fbs).analysisPatterns (c ++ js "_pattern")
      = patUsage st0.analysisPatterns (c ++ js "_pattern") + (fbs.length : ℚ) := by
  induction fbs with
  | nil =>
      intro st0 _
      show patUsage st0.analysisPatterns _ = _
      simp
  | cons q rest ih =>
      intro st0 hfb
      obtain ⟨ev, hev, hcat⟩ := hfb q (List.mem_cons_self _ _)
      have hstep : patUsage (learnFromFeedback st0 q.1 q.2).analysisPatterns
          (c ++ js "_pattern")
          = patUsage st0.analysisPatterns (c ++ js "_pattern") + 1 := by
        rw [← hcat]
        exact patUsage_learn st0 q.1 q.2 ev hev
      have hcons : ingestAll st0 (q :: rest)
          = ingestAll (learnFromFeedback st0 q.1 q.2) rest := rfl
      rw [hcons, ih (learnFromFeedback st0 q.1 q.2)
        (fun r hr => hfb r (List.mem_cons_of_mem _ hr)), hstep]
      simp only [List.length_cons, Nat.cast_add, Nat.cast_one]
      ring

/-- **C6.** Ingesting `N` feedback records that each correct one event of
category `c` leaves that category's pattern with confidence
`min(1, initial + 0.1*N)` — never below a well-formed (`≤ 1`) initial
score — and usage count increased by `N`; concretely, submitting the
`clk → bannerClicked` correction under `user_action` twice yields usage
count `2` and confidence `0.7` (the fresh pattern's `0.5` plus `0.2`,
capped at `1`), and records a `naming_bannerClicked` knowledge item of
category `event_naming` with confidence `0.9` and the old/new name pair
as its example. -/
theorem feedback_reinforcement (st0 : RAGState) (c : JStr)
    (fbs : List (UserFeedback × ℚ))
    (hfb : ∀ q ∈ fbs, ∃ ev, q.1.correctedEvents = [ev] ∧ ev.category = c)
    (hc0 : patConf st0.analysisPatterns (c ++ js "_pattern") ≤ 1) :
    patConf (ingestAll st0 fbs).analysisPatterns (c ++ js "_pattern")
      = jsMin 1 (patConf st0.analysisPatterns (c ++ js "_pattern")
          + (fbs.length : ℚ)/10) ∧
    patUsage (ingestAll st0 fbs).analysisPatterns (c ++ js "_pattern")
      = patUsage st0.analysisPatterns (c ++ js "_pattern") + (fbs.length : ℚ) ∧
    patConf st0.analysisPatterns (c ++ js "_pattern")
      ≤ patConf (ingestAll st0 fbs).analysisPatterns (c ++ js "_pattern") ∧
    patConf (ingestAll (initializeKnowledgeBase none)
        [(fbD, 0), (fbD, 0)]).analysisPatterns
      (js "user_action" ++ js "_pattern") = 7/10 ∧
    patUsage (ingestAll (initializeKnowledgeBase none)
        [(fbD, 0), (fbD, 0)]).analysisPatterns
      (js "user_action" ++ js "_pattern") = 2 ∧
    assocGet (ingestAll (initializeKnowledgeBase none)
        [(fbD, 0), (fbD, 0)]).domainKnowledge (js "naming_bannerClicked")
      = some
        ⟨js "naming_bannerClicked", js "event_naming",
         js "Event Naming: bannerClicked",
         js "Successful event name correction from clk to bannerClicked",
         [JVal.obj [(js "old", .str (js "clk")),
                    (js "new", .str (js "bannerClicked"))]],
         [js "all"], 9/10⟩ := by
  have hfbD : ∀ q ∈ [((fbD : UserFeedback), (0:ℚ)), (fbD, 0)],
      ∃ ev, q.1.correctedEvents = [ev] ∧ ev.category = js "user_action" := by
    intro q hq
    simp only [List.mem_cons, List.not_mem_nil, or_false] at hq
    rcases hq with rfl | rfl <;> exact ⟨evD, rfl, rfl⟩
  have hc0D : patConf (initializeKnowledgeBase none).analysisPatterns
      (js "user_action" ++ js "_pattern") ≤ 1 := by
    show (1/2 : ℚ) ≤ 1
    norm_num
  have hgen := patConf_ingestAll c fbs st0 hfb hc0
  refine ⟨hgen, patUsage_ingestAll c fbs st0 hfb, ?_, ?_, ?_, ?_⟩
  · rw [hgen]
    have hn : (0:ℚ) ≤ (fbs.length : ℚ) := Nat.cast_nonneg _
    unfold jsMin
    split_ifs <;> linarith
  · rw [patConf_ingestAll (js "user_action") [(fbD, 0), (fbD, 0)]
      (initializeKnowledgeBase none) hfbD hc0D]
    have hbase : patConf (initializeKnowledgeBase none).analysisPatterns
        (js "user_action" ++ js "_pattern") = 1/2 := rfl
    rw [hbase]
    unfold jsMin
    norm_num
  · rw [patUsage_ingestAll (js "user_action") [(fbD, 0), (fbD, 0)]
      (initializeKnowledgeBase none) hfbD]
    have hbase : patUsage (initializeKnowledgeBase none).analysisPatterns
        (js "user_action" ++ js "_pattern") = 0 := rfl
    rw [hbase]
    norm_num
  · rfl

theorem feedback_reinforcement_witness :
    patConf (ingestAll (initializeKnowledgeBase none)
        [(fbD, 0), (fbD, 0)]).analysisPatterns
      (js "user_action" ++ js "_pattern")
      = jsMin 1 (patConf (initializeKnowledgeBase none).analysisPatterns
          (js "user_action" ++ js "_pattern")
          + (([((fbD : UserFeedback), (0:ℚ)), (fbD, 0)]).length : ℚ)/10) ∧
    patUsage (ingestAll (initializeKnowledgeBase none)
        [(fbD, 0), (fbD, 0)]).analysisPatterns
      (js "user_action" ++ js "_pattern")
      = patUsage (initializeKnowledgeBase none).analysisPatterns
          (js "user_action" ++ js "_pattern")
          + (([((fbD : UserFeedback), (0:ℚ)), (fbD, 0)]).length : ℚ) ∧
    patConf (initializeKnowledgeBase none).analysisPatterns
        (js "user_action" ++ js "_pattern")
      ≤ patConf (ingestAll (initializeKnowledgeBase none)
          [(fbD, 0), (fbD, 0)]).analysisPatterns
        (js "user_action" ++ js "_pattern") ∧
    patConf (ingestAll (initializeKnowledgeBase none)
        [(fbD, 0), (fbD, 0)]).analysisPatterns
      (js "user_action" ++ js "_pattern") = 7/10 ∧
    patUsage (ingestAll (initializeKnowledgeBase none)
        [(fbD, 0), (fbD, 0)]).analysisPatterns
      (js "user_action" ++ js "_pattern") = 2 ∧
    assocGet (ingestAll (initializeKnowledgeBase none)
        [(fbD, 0), (fbD, 0)]).domainKnowledge (js "naming_bannerClicked")
      = some
        ⟨js "naming_bannerClicked", js "event_naming",
         js "Event Naming: bannerClicked",
         js "Successful event name correction from clk to bannerClicked",
         [JVal.obj [(js "old", .str (js "clk")),
                    (js "new", .str (js "bannerClicked"))]],
         [js "all"], 9/10⟩ :=
  feedback_reinforcement (initializeKnowledgeBase none) (js "user_action")
    [(fbD, 0), (fbD, 0)]
    (by
      intro q hq
      simp only [List.mem_cons, List.not_mem_nil, or_false] at hq
      rcases hq with rfl | rfl <;> exact ⟨evD, rfl, rfl⟩)
    (by
      show (1/2 : ℚ) ≤ 1
      norm_num)

theorem ite_mono_bool (b1 b2 : Bool) (w : ℚ) (hw : 0 ≤ w)
    (h : b1 = true → b2 = true) :
    (if b1 then w else 0) ≤ (if b2 then w else 0) := by
  cases b1 <;> cases b2 <;> simp_all

theorem ite_bool_nonneg (b : Bool) (w : ℚ) (hw : 0 ≤ w) :
    0 ≤ if b then w else 0 := by
  cases b <;> simp_all

theorem propsBonus_nonneg (r : JResultR) : 0 ≤ propsBonus r := by
  unfold propsBonus
  split_ifs <;> norm_num

theorem confBonus_nonneg (r : JResultR) : 0 ≤ confBonus r := by
  unfold confBonus
  split_ifs <;> norm_num

theorem propsBonus_mono (r1 r2 : JResultR)
    (hd3 : avgProps r1 ≥ 3 → avgProps r2 ≥ 3)
    (hd1 : avgProps r1 ≥ 1 → avgProps r2 ≥ 1) :
    propsBonus r1 ≤ propsBonus r2 := by
  unfold propsBonus
  by_cases h1 : avgProps r1 ≥ 3
  · rw [if_pos h1, if_pos (hd3 h1)]
  · rw [if_neg h1]
    by_cases h1b : avgProps r1 ≥ 1
    · rw [if_pos h1b]
      by_cases h2 : avgProps r2 ≥ 3
      · rw [if_pos h2]; norm_num
      · rw [if_neg h2, if_pos (hd1 h1b)]
    · rw [if_neg h1b]
      split_ifs <;> norm_num

theorem confBonus_mono (r1 r2 : JResultR)
    (he8 : avgConf r1 ≥ 4/5 → avgConf r2 ≥ 4/5)
    (he6 : avgConf r1 ≥ 3/5 → avgConf r2 ≥ 3/5) :
    confBonus r1 ≤ confBonus r2 := by
  unfold confBonus
  by_cases h1 : avgConf r1 ≥ 4/5
  · rw [if_pos h1, if_pos (he8 h1)]
  · rw [if_neg h1]
    by_cases h1b : avgConf r1 ≥ 3/5
    · rw [if_pos h1b]
      by_cases h2 : avgConf r2 ≥ 4/5
      · rw [if_pos h2]; norm_num
      · rw [if_neg h2, if_pos (he6 h1b)]
    · rw [if_neg h1b]
      split_ifs <;> norm_num

theorem jsMin_mono_right (x y : ℚ) (h : x ≤ y) : jsMin 1 x ≤ jsMin 1 y := by
  unfold jsMin
  split_ifs <;> linarith

theorem jsMin_one_ge (x : ℚ) (h : 1/2 ≤ x) : 1/2 ≤ jsMin 1 x := by
  unfold jsMin
  split_ifs <;> linarith

theorem assessScore_bounds (r : JResultR) :
    1/2 ≤ assessScore r ∧ assessScore r ≤ 1 := by
  constructor
  · unfold assessScore
    apply jsMin_one_ge
    have h1 := ite_bool_nonneg (hasDreamNaming r) (3/20) (by norm_num)
    have h2 := ite_bool_nonneg (hasTypedProps r) (3/20) (by norm_num)
    have h3 := ite_bool_nonneg (hasDreamProps r) (1/10) (by norm_num)
    have h4 := propsBonus_nonneg r
    have h5 := confBonus_nonneg r
    have h6 := ite_bool_nonneg (hasUserIdProp r && hasTimestampProp r) (1/20)
      (by norm_num)
    have h7 := ite_bool_nonneg (hasContextProps r) (1/10) (by norm_num)
    linarith
  · unfold assessScore
    exact jsMin_one_le _

/-- **C8.** `assessAnalysisQuality` scores from a base of `0.5` plus only
non-negative bonuses, so its score always lies in `[0.5, 1]`; and whenever
one result satisfies every heuristic bonus condition the other satisfies,
its score is at least the other's. -/
theorem assess_monotone_clamped (r1 r2 : JResultR)
    (ha : hasDreamNaming r1 = true → hasDreamNaming r2 = true)
    (hb : hasTypedProps r1 = true → hasTypedProps r2 = true)
    (hc : hasDreamProps r1 = true → hasDreamProps r2 = true)
    (hd3 : avgProps r1 ≥ 3 → avgProps r2 ≥ 3)
    (hd1 : avgProps r1 ≥ 1 → avgProps r2 ≥ 1)
    (he8 : avgConf r1 ≥ 4/5 → avgConf r2 ≥ 4/5)
    (he6 : avgConf r1 ≥ 3/5 → avgConf r2 ≥ 3/5)
    (hf : (hasUserIdProp r1 && hasTimestampProp r1) = true →
          (hasUserIdProp r2 && hasTimestampProp r2) = true)
    (hg : hasContextProps r1 = true → hasContextProps r2 = true) :
    (assessAnalysisQuality r1).score ≤ (assessAnalysisQuality r2).score ∧
    (∀ r : JResultR, 1/2 ≤ (assessAnalysisQuality r).score ∧
      (assessAnalysisQuality r).score ≤ 1) := by
  constructor
  · show assessScore r1 ≤ assessScore r2
    unfold assessScore
    apply jsMin_mono_right
    have g1 := ite_mono_bool _ _ (3/20) (by norm_num) ha
    have g2 := ite_mono_bool _ _ (3/20) (by norm_num) hb
    have g3 := ite_mono_bool _ _ (1/10) (by norm_num) hc
    have g4 := propsBonus_mono r1 r2 hd3 hd1
    have g5 := confBonus_mono r1 r2 he8 he6
    have g6 := ite_mono_bool _ _ (1/20) (by norm_num) hf
    have g7 := ite_mono_bool _ _ (1/10) (by norm_num) hg
    linarith
  · intro r
    exact assessScore_bounds r

theorem assess_monotone_clamped_witness :
    ((assessAnalysisQuality ⟨[], [], [], [], [], [], 1⟩).score
      ≤ (assessAnalysisQuality ⟨[], [], [], [], [], [], 1⟩).score) ∧
    (∀ r : JResultR, 1/2 ≤ (assessAnalysisQuality r).score ∧
      (assessAnalysisQuality r).score ≤ 1) :=
  assess_monotone_clamped ⟨[], [], [], [], [], [], 1⟩ ⟨[], [], [], [], [], [], 1⟩
    (fun h => h) (fun h => h) (fun h => h) (fun h => h) (fun h => h)
    (fun h => h) (fun h => h) (fun h => h) (fun h => h)


theorem bump_nonneg (emb : List ℚ) (i : Nat) (h : ∀ x ∈ emb, 0 ≤ x) :
    ∀ x ∈ bump emb i, 0 ≤ x := by
  intro x hx
  rcases List.mem_or_eq_of_mem_set hx with h1 | h1
  · exact h x h1
  · subst h1
    have hd : 0 ≤ emb.getD i 0 := by
      by_cases hi : i < emb.length
      · rw [List.getD_eq_getElem emb 0 hi]
        exact h _ (List.getElem_mem hi)
      · rw [List.getD_eq_default _ _ (le_of_not_lt hi)]
    linarith

theorem bump_sum (emb : List ℚ) (i : Nat) (hi : i < emb.length) :
    (bump emb i).sum = emb.sum + 1 := by
  induction emb generalizing i with
  | nil => simp at hi
  | cons x xs ih =>
      cases i with
      | zero =>
          simp only [bump, List.set, List.getD_cons_zero, List.sum_cons]
          ring
      | succ j =>
          have hj : j < xs.length := by simpa using hi
          have hx := ih j hj
          simp only [bump, List.set, List.getD_cons_succ, List.sum_cons] at hx ⊢
          linarith

theorem jsSplitWsA_ne_nil (f : Nat) (s : JStr) : jsSplitWsA f s ≠ [] := by
  cases f with
  | zero => simp [jsSplitWsA]
  | succ g =>
      cases hrest : (s.dropWhile (fun c => !isJsWs c)).isEmpty <;>
        simp [jsSplitWsA, hrest]

theorem foldl_bump_invariant (g : JStr → Nat)
    (hg : ∀ w, g w < 100) (l : List JStr) :
    ∀ emb : List ℚ, emb.length = 100 →
    ((l.foldl (fun e w => bump e (g w)) emb).length = 100 ∧
     (l.foldl (fun e w => bump e (g w)) emb).sum = emb.sum + l.length ∧
     ((∀ x ∈ emb, 0 ≤ x) → ∀ x ∈ l.foldl (fun e w => bump e (g w)) emb, 0 ≤ x)) := by
  induction l with
  | nil => intro emb hlen; exact ⟨hlen, by simp, fun h => h⟩
  | cons w ws ih =>
      intro emb hlen
      have hlt : g w < emb.length := by rw [hlen]; exact hg w
      have hb : (bump emb (g w)).length = 100 := by
        simp [bump, hlen]
      obtain ⟨i1, i2, i3⟩ := ih (bump emb (g w)) hb
      refine ⟨i1, ?_, ?_⟩
      · simp only [List.foldl_cons] at i2 ⊢
        rw [i2, bump_sum emb (g w) hlt]
        simp only [List.length_cons]
        push_cast
        ring
      · intro h
        simp only [List.foldl_cons]
        exact i3 (bump_nonneg emb (g w) h)

theorem normSq_nonneg (l : List ℚ) : 0 ≤ normSq l := by
  apply List.sum_nonneg
  intro x hx
  obtain ⟨y, _, rfl⟩ := List.mem_map.mp hx
  exact mul_self_nonneg y

theorem normSq_pos (l : List ℚ) (h : ∃ x ∈ l, x ≠ 0) : 0 < normSq l := by
  induction l with
  | nil =>
      obtain ⟨x, hx, _⟩ := h
      simp at hx
  | cons y ys ih =>
      obtain ⟨x, hx, hx0⟩ := h
      have hns : normSq (y :: ys) = y * y + normSq ys := by simp [normSq]
      rcases List.mem_cons.mp hx with rfl | hmem
      · have h1 : 0 < x * x := mul_self_pos.mpr hx0
        have h2 := normSq_nonneg ys
        rw [hns]; linarith
      · have h1 := ih ⟨x, hmem, hx0⟩
        have h2 := mul_self_nonneg y
        rw [hns]; linarith

theorem sum_nonpos_of_forall (l : List ℚ) (hc : ∀ x ∈ l, x ≤ 0) : l.sum ≤ 0 := by
  induction l with
  | nil => simp
  | cons y ys ih =>
      simp only [List.sum_cons]
      have h1 := hc y (List.mem_cons_self _ _)
      have h2 := ih (fun x hx => hc x (List.mem_cons_of_mem _ hx))
      linarith

theorem emb_exists_pos (l : List ℚ) (hpos : 0 < l.sum) : ∃ x ∈ l, 0 < x := by
  by_contra hc
  push_neg at hc
  have hs : l.sum ≤ 0 := sum_nonpos_of_forall l hc
  linarith

theorem simpleEmbedding_shape (s : JStr) :
    (simpleEmbedding s).length = 100 ∧
    (∀ x ∈ simpleEmbedding s, 0 ≤ x) ∧ (∃ x ∈ simpleEmbedding s, 0 < x) := by
  have hg : ∀ w : JStr, embIndex w < 100 := fun w => Nat.mod_lt _ (by norm_num)
  obtain ⟨h1, h2, h3⟩ := foldl_bump_invariant embIndex hg
    (jsSplitWs (s.map Char.toLower)) (List.replicate 100 0) (by simp)
  have hnn : ∀ x ∈ simpleEmbedding s, 0 ≤ x := by
    apply h3
    intro x hx
    rw [List.eq_of_mem_replicate hx]
  refine ⟨h1, hnn, ?_⟩
  have hne : jsSplitWs (s.map Char.toLower) ≠ [] :=
    jsSplitWsA_ne_nil _ _
  have hlen : 1 ≤ (jsSplitWs (s.map Char.toLower)).length :=
    List.length_pos.mpr hne
  have hpos : 0 < (simpleEmbedding s).sum := by
    show (0:ℚ) < _
    rw [show (simpleEmbedding s).sum
        = (List.replicate 100 (0:ℚ)).sum + (jsSplitWs (s.map Char.toLower)).length
      from h2]
    have hc : (1:ℚ) ≤ ((jsSplitWs (s.map Char.toLower)).length : ℚ) := by
      exact_mod_cast hlen
    simp only [List.sum_replicate, smul_zero]
    linarith
  exact emb_exists_pos _ hpos

/-- **C10.** Every `simpleEmbedding` vector has length exactly `100`, all
entries non-negative, and at least one strictly positive entry; the
document stored by `addDocument` carries exactly the embedding of its
content, so the product of the squared norms — hence the norm product in
the `cosineSimilarity` denominator used by `similaritySearch` — is
strictly positive for any query against any added document, and the score
division never divides by zero. -/
theorem simpleEmbedding_vectors_valid (t q : JStr) (docs : List (JStr × VDoc))
    (id content : JStr) (meta : VMeta) :
    (simpleEmbedding t).length = 100 ∧
    (∀ x ∈ simpleEmbedding t, 0 ≤ x) ∧
    (∃ x ∈ simpleEmbedding t, 0 < x) ∧
    assocGet (addDocument docs id content meta) id
      = some ⟨content, meta, simpleEmbedding content⟩ ∧
    0 < normSq (simpleEmbedding q) * normSq (simpleEmbedding content) := by
  obtain ⟨h1t, h2t, h3t⟩ := simpleEmbedding_shape t
  obtain ⟨_, _, h3q⟩ := simpleEmbedding_shape q
  obtain ⟨_, _, h3c⟩ := simpleEmbedding_shape content
  refine ⟨h1t, h2t, h3t, ?_, ?_⟩
  · unfold addDocument
    rw [assocGet_set, if_pos rfl]
  · have hq : 0 < normSq (simpleEmbedding q) := by
      apply normSq_pos
      obtain ⟨x, hx, hx0⟩ := h3q
      exact ⟨x, hx, ne_of_gt hx0⟩
    have hc : 0 < normSq (simpleEmbedding content) := by
      apply normSq_pos
      obtain ⟨x, hx, hx0⟩ := h3c
      exact ⟨x, hx, ne_of_gt hx0⟩
    exact mul_pos hq hc

theorem suffix_append_cases (t a b : List Char) (h : t <:+ a ++ b) :
    (∃ u, u <:+ a ∧ u ≠ [] ∧ t = u ++ b) ∨ t <:+ b := by
  obtain ⟨r, hr⟩ := h
  have ht : t = (a ++ b).drop r.length := by
    rw [← hr, List.drop_left]
  by_cases hk : r.length < a.length
  · left
    refine ⟨a.drop r.length, List.drop_suffix _ _, ?_, ?_⟩
    · intro hu
      have hlen := List.length_drop r.length a
      rw [hu] at hlen
      simp at hlen
      omega
    · rw [ht, List.drop_append_of_le_length (le_of_lt hk)]
  · right
    have hk2 : r.length = a.length + (r.length - a.length) := by omega
    rw [ht, hk2, List.drop_append]
    exact List.drop_suffix _ _

theorem prefix_headI (p l : List Char) (hne : p ≠ []) (h : p <+: l) :
    l.headI = p.headI := by
  obtain ⟨r, rfl⟩ := h
  cases p with
  | nil => exact absurd rfl hne
  | cons c cs => rfl

theorem stripFenceJsonA_keep (f : Nat) :
    ∀ s : JStr,
    (∀ t, t <:+ s → ¬ (js "\x60\x60\x60json").isPrefixOf t = true) →
    stripFenceJsonA f s = s := by
  induction f with
  | zero => intro s _; rfl
  | succ g ih =>
      intro s hs
      cases s with
      | nil => rfl
      | cons c cs =>
          show (if (js "\x60\x60\x60json").isPrefixOf (c :: cs) = true then
              stripFenceJsonA g (((c :: cs).drop 7).dropWhile isJsWs)
            else c :: stripFenceJsonA g cs) = c :: cs
          rw [if_neg (hs _ (List.suffix_refl _)),
            ih cs (fun t ht => hs t (ht.trans (List.suffix_cons c cs)))]

theorem stripTicksA_keep (f : Nat) :
    ∀ s : JStr,
    (∀ t, t <:+ s →
      ¬ (js "\x60\x60\x60").isPrefixOf (t.dropWhile isJsWs) = true) →
    stripTicksA f s = s := by
  induction f with
  | zero => intro s _; rfl
  | succ g ih =>
      intro s hs
      cases s with
      | nil => rfl
      | cons c cs =>
          show (if (js "\x60\x60\x60").isPrefixOf ((c :: cs).dropWhile isJsWs) = true then
              stripTicksA g (((c :: cs).dropWhile isJsWs).drop 3)
            else c :: stripTicksA g cs) = c :: cs
          rw [if_neg (hs _ (List.suffix_refl _)),
            ih cs (fun t ht => hs t (ht.trans (List.suffix_cons c cs)))]

theorem fence_match_shape (t : JStr)
    (h : (js "\x60\x60\x60json").isPrefixOf t = true) :
    t.headI = '\x60' ∧ 7 ≤ t.length := by
  rw [List.isPrefixOf_iff_prefix] at h
  constructor
  · rw [prefix_headI _ _ (by decide) h]; rfl
  · exact h.length_le

theorem ticks_match_shape (t : JStr)
    (h : (js "\x60\x60\x60").isPrefixOf t = true) :
    t.headI = '\x60' ∧ 3 ≤ t.length := by
  rw [List.isPrefixOf_iff_prefix] at h
  constructor
  · rw [prefix_headI _ _ (by decide) h]; rfl
  · exact h.length_le

theorem headI_mem (t : List Char) (h : t ≠ []) : t.headI ∈ t := by
  cases t with
  | nil => exact absurd rfl h
  | cons c cs => exact List.mem_cons_self _ _

theorem no_backtick_no_fence (s : JStr) (hb : '\x60' ∉ s) :
    ∀ t, t <:+ s → ¬ (js "\x60\x60\x60json").isPrefixOf t = true := by
  intro t ht hp
  obtain ⟨hh, hl⟩ := fence_match_shape t hp
  have htne : t ≠ [] := by
    intro he
    rw [he] at hl
    simp at hl
  apply hb
  apply ht.subset
  rw [← hh]
  exact headI_mem t htne

theorem stripFenceJson_id (s : JStr) (hb : '\x60' ∉ s) : stripFenceJson s = s :=
  stripFenceJsonA_keep s.length s (no_backtick_no_fence s hb)

theorem stripFenceJsonA_cons (g : Nat) (c : Char) (cs : JStr) :
    stripFenceJsonA (g+1) (c :: cs)
      = if (js "\x60\x60\x60json").isPrefixOf (c :: cs) = true then
          stripFenceJsonA g (((c :: cs).drop 7).dropWhile isJsWs)
        else c :: stripFenceJsonA g cs := rfl

theorem stripTicksA_cons (g : Nat) (c : Char) (cs : JStr) :
    stripTicksA (g+1) (c :: cs)
      = if (js "\x60\x60\x60").isPrefixOf ((c :: cs).dropWhile isJsWs) = true then
          stripTicksA g (((c :: cs).dropWhile isJsWs).drop 3)
        else c :: stripTicksA g cs := rfl

theorem wrapped_tail_no_fence (J : JStr) (hJb : '\x60' ∉ J) :
    ∀ t, t <:+ J ++ js "\n\x60\x60\x60" →
      ¬ (js "\x60\x60\x60json").isPrefixOf t = true := by
  intro t ht hp
  obtain ⟨hh, hl⟩ := fence_match_shape t hp
  rcases suffix_append_cases t J (js "\n\x60\x60\x60") ht with ⟨u, hu, hune, rfl⟩ | hb
  · have hhu : (u ++ js "\n\x60\x60\x60").headI = u.headI := by
      cases u with
      | nil => exact absurd rfl hune
      | cons d ds => rfl
    rw [hhu] at hh
    exact hJb (hu.subset (hh ▸ headI_mem u hune))
  · have hle := hb.length_le
    have h4 : (js "\n\x60\x60\x60").length = 4 := rfl
    omega

theorem stripFenceJsonA_wrapped (J : JStr) (hJb : '\x60' ∉ J) (hJne : J ≠ [])
    (hJw : isJsWs J.headI = false) :
    ∀ (prose : JStr) (f : Nat), prose.length + 1 ≤ f → '\x60' ∉ prose →
    stripFenceJsonA f (prose ++ (js "\x60\x60\x60json\n" ++ (J ++ js "\n\x60\x60\x60")))
      = prose ++ (J ++ js "\n\x60\x60\x60") := by
  intro prose
  induction prose with
  | nil =>
      intro f hf _
      cases f with
      | zero => omega
      | succ g =>
          rw [List.nil_append, List.nil_append]
          have hX : js "\x60\x60\x60json\n" ++ (J ++ js "\n\x60\x60\x60")
              = '\x60' :: (js "\x60\x60json\n" ++ (J ++ js "\n\x60\x60\x60")) := rfl
          have hpre : (js "\x60\x60\x60json").isPrefixOf
              (js "\x60\x60\x60json\n" ++ (J ++ js "\n\x60\x60\x60")) = true := by
            rw [List.isPrefixOf_iff_prefix]
            refine ⟨js "\n" ++ (J ++ js "\n\x60\x60\x60"), ?_⟩
            rw [← List.append_assoc]
            rfl
          rw [hX, stripFenceJsonA_cons, if_pos (hX ▸ hpre)]
          have hdrop : (('\x60' :: (js "\x60\x60json\n"
              ++ (J ++ js "\n\x60\x60\x60"))).drop 7).dropWhile isJsWs
              = J ++ js "\n\x60\x60\x60" := by
            rw [← hX]
            rw [List.drop_append_of_le_length (by decide :
              (7:Nat) ≤ (js "\x60\x60\x60json\n").length)]
            have h7 : (js "\x60\x60\x60json\n").drop 7 ++ (J ++ js "\n\x60\x60\x60")
                = '\n' :: (J ++ js "\n\x60\x60\x60") := rfl
            rw [h7, List.dropWhile_cons, if_pos (by decide : isJsWs '\n' = true)]
            cases J with
            | nil => exact absurd rfl hJne
            | cons c0 J0 =>
                have hc0 : isJsWs c0 = false := hJw
                rw [List.cons_append, List.dropWhile_cons, if_neg]
                rw [hc0]
                decide
          rw [hdrop]
          exact stripFenceJsonA_keep g _ (wrapped_tail_no_fence J hJb)
  | cons c ps ih =>
      intro f hf hpb
      cases f with
      | zero => simp at hf
      | succ g =>
          rw [List.cons_append, stripFenceJsonA_cons]
          have hnb : ¬ (js "\x60\x60\x60json").isPrefixOf
              (c :: (ps ++ (js "\x60\x60\x60json\n" ++ (J ++ js "\n\x60\x60\x60")))) = true := by
            intro hp
            obtain ⟨hh, _⟩ := fence_match_shape _ hp
            exact hpb (hh ▸ List.mem_cons_self c ps)
          rw [if_neg hnb, ih g (by simp at hf ⊢; omega)
            (fun hx => hpb (List.mem_cons_of_mem c hx))]
          rw [List.cons_append]

theorem no_backtick_no_ticks (s : JStr) (hb : '\x60' ∉ s) :
    ∀ t, t <:+ s → ¬ (js "\x60\x60\x60").isPrefixOf (t.dropWhile isJsWs) = true := by
  intro t ht hp
  obtain ⟨hh, hl⟩ := ticks_match_shape _ hp
  have hne : t.dropWhile isJsWs ≠ [] := by
    intro he
    rw [he] at hl
    simp at hl
  exact hb (ht.subset ((List.dropWhile_sublist isJsWs).subset
    (hh ▸ headI_mem _ hne)))

theorem stripTicks_id (s : JStr) (hb : '\x60' ∉ s) : stripTicks s = s :=
  stripTicksA_keep s.length s (no_backtick_no_ticks s hb)

theorem stripTicksA_nil (g : Nat) : stripTicksA g [] = [] := by
  cases g <;> rfl

theorem dropWhile_append_ws (a b : JStr) (ha : ∀ c ∈ a, isJsWs c = true) :
    (a ++ b).dropWhile isJsWs = b.dropWhile isJsWs := by
  induction a with
  | nil => rfl
  | cons c as ih =>
      rw [List.cons_append, List.dropWhile_cons,
        if_pos (ha c (List.mem_cons_self _ _)),
        ih (fun x hx => ha x (List.mem_cons_of_mem _ hx))]

theorem dropWhile_eq_self_of_head (X : JStr) (h : isJsWs X.headI = false) :
    X.dropWhile isJsWs = X := by
  cases X with
  | nil => rfl
  | cons c cs =>
      have h2 : isJsWs c = false := h
      rw [List.dropWhile_cons, if_neg]
      rw [h2]
      simp

theorem stripTicksA_wrapped2 (ws0 : JStr) (hws0 : ∀ c ∈ ws0, isJsWs c = true) :
    ∀ (A : JStr) (f : Nat), A.length + 1 ≤ f →
    (∀ t, t <:+ A → t ≠ [] →
      ¬ (js "\x60\x60\x60").isPrefixOf
        ((t ++ (ws0 ++ js "\n\x60\x60\x60")).dropWhile isJsWs) = true) →
    stripTicksA f (A ++ (ws0 ++ js "\n\x60\x60\x60")) = A := by
  have hdw : (ws0 ++ js "\n\x60\x60\x60").dropWhile isJsWs
      = js "\x60\x60\x60" := by
    rw [dropWhile_append_ws ws0 _ hws0]
    rfl
  intro A
  induction A with
  | nil =>
      intro f hf _
      cases f with
      | zero => omega
      | succ g =>
          rw [List.nil_append]
          cases hw : ws0 with
          | nil =>
              rw [List.nil_append]
              have hX : js "\n\x60\x60\x60" = '\n' :: js "\x60\x60\x60" := rfl
              rw [hX, stripTicksA_cons, if_pos (by decide)]
              have hdr : (('\n' :: js "\x60\x60\x60").dropWhile isJsWs).drop 3
                  = [] := rfl
              rw [hdr, stripTicksA_nil]
          | cons w ws1 =>
              rw [List.cons_append, stripTicksA_cons]
              have hd2 : (w :: (ws1 ++ js "\n\x60\x60\x60")).dropWhile isJsWs
                  = js "\x60\x60\x60" := by
                rw [hw] at hdw
                exact hdw
              rw [hd2, if_pos (by decide)]
              have hdr : (js "\x60\x60\x60").drop 3 = [] := rfl
              rw [hdr, stripTicksA_nil]
  | cons c A2 ih =>
      intro f hf hnm
      cases f with
      | zero => simp at hf
      | succ g =>
          rw [List.cons_append, stripTicksA_cons]
          have hcond : ¬ (js "\x60\x60\x60").isPrefixOf
              ((c :: (A2 ++ (ws0 ++ js "\n\x60\x60\x60"))).dropWhile isJsWs)
              = true := by
            have hr := hnm (c :: A2) (List.suffix_refl _) (by simp)
            rw [List.cons_append] at hr
            exact hr
          rw [if_neg hcond, ih g (by simp at hf ⊢; omega)
            (fun t ht htne => hnm t (ht.trans (List.suffix_cons c A2)) htne)]

theorem wrapped_body_no_ticks (tail : JStr) (prose J : JStr)
    (hpb : '\x60' ∉ prose) (hJb : '\x60' ∉ J) (hJne : J ≠ [])
    (hJt : J.reverse.dropWhile isJsWs = J.reverse) :
    ∀ t, t <:+ prose ++ J → t ≠ [] →
      ¬ (js "\x60\x60\x60").isPrefixOf
        ((t ++ tail).dropWhile isJsWs) = true := by
  intro t ht htne hp
  by_cases hu : t.dropWhile isJsWs = []
  · rw [List.dropWhile_eq_nil_iff] at hu
    have hrev : t.reverse <+: (prose ++ J).reverse := List.reverse_prefix.mpr ht
    have hrne : t.reverse ≠ [] := by simpa using htne
    have hh : (prose ++ J).reverse.headI = t.reverse.headI :=
      prefix_headI _ _ hrne hrev
    rw [List.reverse_append] at hh
    have hJr : J.reverse ≠ [] := by simpa using hJne
    obtain ⟨d, ds, hds⟩ : ∃ d ds, J.reverse = d :: ds := by
      cases hc : J.reverse with
      | nil => exact absurd hc hJr
      | cons d ds => exact ⟨d, ds, rfl⟩
    have hh2 : (J.reverse ++ prose.reverse).headI = d := by
      rw [hds]
      rfl
    have hdnw : isJsWs d = false := by
      by_contra hw
      rw [Bool.not_eq_false] at hw
      rw [hds, List.dropWhile_cons, if_pos hw] at hJt
      have := lenDropWhileLe isJsWs ds
      have h2 := congrArg List.length hJt
      simp at h2
      omega
    have hws : isJsWs (t.reverse.headI) = true := by
      apply hu
      rw [← List.mem_reverse]
      exact headI_mem _ hrne
    rw [hh2] at hh
    rw [← hh] at hws
    rw [hws] at hdnw
    exact Bool.true_eq_false.mp hdnw
  · have hsplit : (t ++ tail).dropWhile isJsWs
        = t.dropWhile isJsWs ++ tail := by
      rw [List.dropWhile_append, if_neg]
      rw [List.isEmpty_iff]
      exact hu
    rw [hsplit] at hp
    obtain ⟨hh, _⟩ := ticks_match_shape _ hp
    have hhu : (t.dropWhile isJsWs ++ tail).headI
        = (t.dropWhile isJsWs).headI := by
      cases hc : t.dropWhile isJsWs with
      | nil => exact absurd hc hu
      | cons d ds => rfl
    rw [hhu] at hh
    have hmem : '\x60' ∈ t :=
      (List.dropWhile_sublist isJsWs).subset (hh ▸ headI_mem _ hu)
    rcases List.mem_append.mp (ht.subset hmem) with h | h
    · exact hpb h
    · exact hJb h

theorem jsTrim_eq_self (s : JStr) (hh : isJsWs s.headI = false)
    (hl : isJsWs s.reverse.headI = false) : jsTrim s = s := by
  unfold jsTrim
  have h1 : s.dropWhile isJsWs = s := by
    cases s with
    | nil => rfl
    | cons c cs =>
        rw [List.dropWhile_cons, if_neg]
        rw [show (c :: cs).headI = c from rfl] at hh
        rw [hh]
        simp
  rw [h1]
  have h2 : s.reverse.dropWhile isJsWs = s.reverse := by
    cases hr : s.reverse with
    | nil => rfl
    | cons c cs =>
        rw [List.dropWhile_cons, if_neg]
        rw [hr] at hl
        rw [show (c :: cs).headI = c from rfl] at hl
        rw [hl]
        simp
  rw [h2, List.reverse_reverse]

theorem findIdx_brace (J : JStr) (hJne : J ≠ []) (hJh : J.headI = lbrace) :
    ∀ (prose : JStr) (i : Nat), lbrace ∉ prose →
    List.findIdx? (· = lbrace) (prose ++ J) i = some (prose.length + i) := by
  intro prose
  induction prose with
  | nil =>
      intro i _
      rw [List.nil_append]
      cases J with
      | nil => exact absurd rfl hJne
      | cons c0 J0 =>
          have hc0 : c0 = lbrace := hJh
          rw [List.findIdx?_cons, if_pos]
          · rw [List.length_nil, Nat.zero_add]
          · rw [hc0]
            exact decide_eq_true rfl
  | cons c ps ih =>
      intro i hbr
      rw [List.cons_append, List.findIdx?_cons, if_neg, ih (i + 1)
        (fun h => hbr (List.mem_cons_of_mem c h))]
      · congr 1
        rw [List.length_cons]
        omega
      · intro hc
        exact hbr (of_decide_eq_true hc ▸ List.mem_cons_self c ps)

theorem sliceFromBrace_concat (prose J : JStr) (hpbr : lbrace ∉ prose)
    (hJne : J ≠ []) (hJh : J.headI = lbrace) :
    sliceFromBrace (prose ++ J) = J := by
  unfold sliceFromBrace
  rw [findIdx_brace J hJne hJh prose 0 hpbr]
  by_cases hp : prose = []
  · subst hp
    simp
  · have hl : 0 < prose.length := List.length_pos.mpr hp
    show (if 0 < prose.length + 0 then (prose ++ J).drop (prose.length + 0)
      else prose ++ J) = J
    rw [if_pos (by omega)]
    rw [show prose.length + 0 = prose.length from rfl, List.drop_left]

theorem trimmed_rev_head (J : JStr) (hJne : J ≠ [])
    (hJt : J.reverse.dropWhile isJsWs = J.reverse) :
    isJsWs J.reverse.headI = false := by
  have hJr : J.reverse ≠ [] := by simpa using hJne
  obtain ⟨d, ds, hds⟩ : ∃ d ds, J.reverse = d :: ds := by
    cases hc : J.reverse with
    | nil => exact absurd hc hJr
    | cons d ds => exact ⟨d, ds, rfl⟩
  rw [hds]
  show isJsWs d = false
  by_contra hw
  rw [Bool.not_eq_false] at hw
  rw [hds, List.dropWhile_cons, if_pos hw] at hJt
  have := lenDropWhileLe isJsWs ds
  have h2 := congrArg List.length hJt
  simp at h2
  omega

theorem rtrimWs_append (J : JStr) :
    J = rtrimWs J ++ (J.reverse.takeWhile isJsWs).reverse := by
  unfold rtrimWs
  rw [← List.reverse_append, List.takeWhile_append_dropWhile isJsWs J.reverse,
    List.reverse_reverse]

theorem rtrimWs_ws (J : JStr) :
    ∀ c ∈ (J.reverse.takeWhile isJsWs).reverse, isJsWs c = true := by
  intro c hc
  rw [List.mem_reverse] at hc
  exact List.mem_takeWhile_imp hc

theorem rtrimWs_trimmed (J : JStr) :
    (rtrimWs J).reverse.dropWhile isJsWs = (rtrimWs J).reverse := by
  unfold rtrimWs
  rw [List.reverse_reverse]
  exact List.dropWhile_idempotent _ _

theorem rtrimWs_ne (J : JStr) (hne : J ≠ []) (hw : isJsWs J.headI = false) :
    rtrimWs J ≠ [] := by
  intro h0
  have hJ := rtrimWs_append J
  rw [h0, List.nil_append] at hJ
  have hws : isJsWs J.headI = true := by
    apply rtrimWs_ws J
    rw [← hJ]
    exact headI_mem J hne
  rw [hws] at hw
  exact Bool.noConfusion hw

theorem rtrimWs_headI (J : JStr) (hne : J ≠ []) (hw : isJsWs J.headI = false) :
    (rtrimWs J).headI = J.headI := by
  have hJ := rtrimWs_append J
  have hne2 := rtrimWs_ne J hne hw
  cases hr : rtrimWs J with
  | nil => exact absurd hr hne2
  | cons c cs =>
      rw [hr] at hJ
      conv_rhs => rw [hJ]
      rfl

theorem rtrimWs_subset (J : JStr) : ∀ c ∈ rtrimWs J, c ∈ J := by
  intro c hc
  unfold rtrimWs at hc
  rw [List.mem_reverse] at hc
  have hm := (List.dropWhile_sublist isJsWs).subset hc
  rw [List.mem_reverse] at hm
  exact hm

theorem rtrimWs_mem_brace (J : JStr) (h : lbrace ∈ J) : lbrace ∈ rtrimWs J := by
  have hJ := rtrimWs_append J
  rw [hJ] at h
  rcases List.mem_append.mp h with h1 | h1
  · exact h1
  · exact absurd (rtrimWs_ws J lbrace h1) (by decide)

theorem findIdx_ge_start (b : JStr) :
    ∀ i0 k, List.findIdx? (· = lbrace) b i0 = some k → i0 ≤ k := by
  induction b with
  | nil =>
      intro i0 k h
      simp [List.findIdx?] at h
  | cons c bs ih =>
      intro i0 k h
      rw [List.findIdx?_cons] at h
      by_cases hc : c = lbrace
      · rw [if_pos (decide_eq_true hc)] at h
        simp at h
        omega
      · rw [if_neg (by simp [hc])] at h
        have := ih (i0 + 1) k h
        omega

theorem findIdx_brace_isSome (b : JStr) :
    lbrace ∈ b → ∀ i0, ∃ k, List.findIdx? (· = lbrace) b i0 = some k := by
  induction b with
  | nil =>
      intro h
      simp at h
  | cons c bs ih =>
      intro h i0
      rw [List.findIdx?_cons]
      by_cases hc : c = lbrace
      · rw [if_pos (decide_eq_true hc)]
        exact ⟨i0, rfl⟩
      · rw [if_neg (by simp [hc])]
        apply ih ?_ (i0 + 1)
        rcases List.mem_cons.mp h with h1 | h1
        · exact absurd h1.symm hc
        · exact h1

theorem findIdx_brace_append2 (b : JStr) :
    ∀ (a : JStr) (i0 : Nat), lbrace ∉ a →
    List.findIdx? (· = lbrace) (a ++ b) i0
      = List.findIdx? (· = lbrace) b (i0 + a.length) := by
  intro a
  induction a with
  | nil =>
      intro i0 _
      simp
  | cons c as ih =>
      intro i0 ha
      rw [List.cons_append, List.findIdx?_cons, if_neg (by
        simp only [decide_eq_true_eq]
        intro hc
        exact ha (hc ▸ List.mem_cons_self c as))]
      rw [ih (i0 + 1) (fun h => ha (List.mem_cons_of_mem _ h))]
      congr 1
      simp [List.length_cons]
      omega

theorem findIdx_shift2 (b : JStr) :
    ∀ i0, List.findIdx? (· = lbrace) b i0
      = (List.findIdx? (· = lbrace) b 0).map (fun k => k + i0) := by
  induction b with
  | nil => intro i0; rfl
  | cons c bs ih =>
      intro i0
      rw [List.findIdx?_cons, List.findIdx?_cons]
      by_cases hc : c = lbrace
      · rw [if_pos (decide_eq_true hc), if_pos (decide_eq_true hc)]
        simp
      · rw [if_neg (by simp [hc]), if_neg (by simp [hc])]
        rw [ih (i0 + 1), ih 1]
        cases h0 : List.findIdx? (· = lbrace) bs 0 with
        | none => rfl
        | some k =>
            simp
            omega

theorem sliceFromBrace_concat2 (prose J0 : JStr) (hpbr : lbrace ∉ prose)
    (hJ0ne : J0 ≠ [])
    (hhead : J0.headI = lbrace ∨ (J0.headI = '[' ∧ lbrace ∈ J0)) :
    sliceFromBrace (prose ++ J0) = sliceFromBrace J0 := by
  rcases hhead with hobj | ⟨harr, hmem⟩
  · rw [sliceFromBrace_concat prose J0 hpbr hJ0ne hobj]
    have hs := sliceFromBrace_concat [] J0 (by simp) hJ0ne hobj
    rw [List.nil_append] at hs
    rw [hs]
  · obtain ⟨k, hk⟩ := findIdx_brace_isSome J0 hmem 0
    have hk1 : 1 ≤ k := by
      cases hJ : J0 with
      | nil => exact absurd hJ hJ0ne
      | cons c0 t =>
          rw [hJ] at hk harr
          have hc0 : c0 = '[' := harr
          rw [List.findIdx?_cons, if_neg (by
            simp only [decide_eq_true_eq]
            rw [hc0]
            decide)] at hk
          exact findIdx_ge_start t 1 k hk
    unfold sliceFromBrace
    rw [findIdx_brace_append2 J0 prose 0 hpbr, findIdx_shift2 J0 (0 + prose.length),
      hk]
    show (if 0 < k + (0 + prose.length) then
        (prose ++ J0).drop (k + (0 + prose.length)) else prose ++ J0)
      = (if 0 < k then J0.drop k else J0)
    rw [if_pos (by omega), if_pos (by omega),
      show k + (0 + prose.length) = prose.length + k from by omega]
    exact List.drop_append k

theorem cleanResponse_bare (J : JStr) (hJb : '\x60' ∉ J)
    (hJw : isJsWs J.headI = false) :
    cleanResponse J = sliceFromBrace (rtrimWs J) := by
  unfold cleanResponse
  have h1 : jsTrim J = rtrimWs J := by
    unfold jsTrim rtrimWs
    rw [dropWhile_eq_self_of_head J hJw]
  rw [h1,
    stripFenceJson_id _ (fun h => hJb (rtrimWs_subset J _ h)),
    stripTicks_id _ (fun h => hJb (rtrimWs_subset J _ h))]

theorem cleanResponse_wrapped (prose J : JStr)
    (hpb : '\x60' ∉ prose)
    (hJb : '\x60' ∉ J) (hJne : J ≠ []) (hJw : isJsWs J.headI = false) :
    cleanResponse (prose ++ (js "\x60\x60\x60json\n" ++ (J ++ js "\n\x60\x60\x60")))
      = sliceFromBrace (prose.dropWhile isJsWs ++ rtrimWs J) := by
  unfold cleanResponse
  have h8 : (js "\x60\x60\x60json\n").length = 8 := rfl
  have h4 : (js "\n\x60\x60\x60").length = 4 := rfl
  have hT : jsTrim (prose ++ (js "\x60\x60\x60json\n" ++ (J ++ js "\n\x60\x60\x60")))
      = prose.dropWhile isJsWs
        ++ (js "\x60\x60\x60json\n" ++ (J ++ js "\n\x60\x60\x60")) := by
    unfold jsTrim
    have hfront : (prose
        ++ (js "\x60\x60\x60json\n" ++ (J ++ js "\n\x60\x60\x60"))).dropWhile isJsWs
        = prose.dropWhile isJsWs
          ++ (js "\x60\x60\x60json\n" ++ (J ++ js "\n\x60\x60\x60")) := by
      rw [List.dropWhile_append]
      by_cases he : (prose.dropWhile isJsWs).isEmpty
      · rw [if_pos he]
        rw [List.isEmpty_iff] at he
        rw [he, List.nil_append]
        exact dropWhile_eq_self_of_head _ rfl
      · rw [if_neg he]
    have hback : (prose.dropWhile isJsWs
        ++ (js "\x60\x60\x60json\n" ++ (J ++ js "\n\x60\x60\x60"))).reverse.dropWhile isJsWs
        = (prose.dropWhile isJsWs
          ++ (js "\x60\x60\x60json\n" ++ (J ++ js "\n\x60\x60\x60"))).reverse := by
      apply dropWhile_eq_self_of_head
      rw [List.reverse_append, List.reverse_append, List.reverse_append]
      rfl
    rw [hfront, hback, List.reverse_reverse]
  rw [hT]
  unfold stripFenceJson
  rw [stripFenceJsonA_wrapped J hJb hJne hJw (prose.dropWhile isJsWs) _
    (by simp [List.length_append]; omega)
    (fun h => hpb ((List.dropWhile_sublist isJsWs).subset h))]
  unfold stripTicks
  have hsplit : prose.dropWhile isJsWs ++ (J ++ js "\n\x60\x60\x60")
      = (prose.dropWhile isJsWs ++ rtrimWs J)
        ++ ((J.reverse.takeWhile isJsWs).reverse ++ js "\n\x60\x60\x60") := by
    conv_lhs => rw [rtrimWs_append J]
    rw [List.append_assoc (rtrimWs J) ((J.reverse.takeWhile isJsWs).reverse)
        (js "\n\x60\x60\x60"),
      ← List.append_assoc (prose.dropWhile isJsWs) (rtrimWs J)
        ((J.reverse.takeWhile isJsWs).reverse ++ js "\n\x60\x60\x60")]
  rw [hsplit]
  rw [stripTicksA_wrapped2 ((J.reverse.takeWhile isJsWs).reverse) (rtrimWs_ws J)
    (prose.dropWhile isJsWs ++ rtrimWs J) _
    (by simp [List.length_append]; omega)
    (wrapped_body_no_ticks ((J.reverse.takeWhile isJsWs).reverse ++ js "\n\x60\x60\x60")
      (prose.dropWhile isJsWs) (rtrimWs J)
      (fun h => hpb ((List.dropWhile_sublist isJsWs).subset h))
      (fun h => hJb (rtrimWs_subset J _ h))
      (rtrimWs_ne J hJne hJw)
      (rtrimWs_trimmed J))]

/-- **C2.** For every payload in an accepted response shape — its text
beginning with the object brace, or with the array bracket of the
screen-block shape and containing a brace — wrapping it in markdown
`json` code fences behind prose free of backticks and braces parses to
exactly the same structured result as the bare payload (backticks inside
the payload would interact with the fence stripping; neither wrapping nor
leading/trailing whitespace changes the outcome); and the concrete
Scenario B response parses to exactly one event named `"x"` with zero
properties. -/
theorem parse_fenced_equals_bare (now prose J : JStr)
    (shots : List ScreenshotData)
    (hpb : '\x60' ∉ prose) (hpbr : lbrace ∉ prose)
    (hJb : '\x60' ∉ J) (hJne : J ≠ [])
    (hJh : J.headI = lbrace ∨ (J.headI = '[' ∧ lbrace ∈ J)) :
    parseAIResponse now
        (prose ++ (js "\x60\x60\x60json\n" ++ (J ++ js "\n\x60\x60\x60"))) shots
      = parseAIResponse now J shots ∧
    (∃ ev, (parseAIResponse []
        (js "Here you go:\n\x60\x60\x60json\n\x7b\"events\":[\x7b\"name\":\"x\",\"properties\":[]\x7d]\x7d\n\x60\x60\x60")
        []).events = [ev] ∧
      ev.name = JVal.str (js "x") ∧ ev.properties = []) := by
  have hJw : isJsWs J.headI = false := by
    rcases hJh with h | ⟨h, _⟩ <;> rw [h] <;> decide
  have hJ0ne := rtrimWs_ne J hJne hJw
  have hJ0h : (rtrimWs J).headI = lbrace
      ∨ ((rtrimWs J).headI = '[' ∧ lbrace ∈ rtrimWs J) := by
    rw [rtrimWs_headI J hJne hJw]
    rcases hJh with h | ⟨h1, h2⟩
    · exact Or.inl h
    · exact Or.inr ⟨h1, rtrimWs_mem_brace J h2⟩
  constructor
  · unfold parseAIResponse
    rw [cleanResponse_wrapped prose J hpb hJb hJne hJw,
      cleanResponse_bare J hJb hJw,
      sliceFromBrace_concat2 (prose.dropWhile isJsWs) (rtrimWs J)
        (fun h => hpbr ((List.dropWhile_sublist isJsWs).subset h)) hJ0ne hJ0h]
  · exact ⟨_, rfl, rfl, rfl⟩

theorem parse_fenced_equals_bare_witness :
    parseAIResponse []
        (js "Here you go:\n" ++ (js "\x60\x60\x60json\n"
          ++ (js "\x7b\"a\":1\x7d" ++ js "\n\x60\x60\x60"))) []
      = parseAIResponse [] (js "\x7b\"a\":1\x7d") [] ∧
    (∃ ev, (parseAIResponse []
        (js "Here you go:\n\x60\x60\x60json\n\x7b\"events\":[\x7b\"name\":\"x\",\"properties\":[]\x7d]\x7d\n\x60\x60\x60")
        []).events = [ev] ∧
      ev.name = JVal.str (js "x") ∧ ev.properties = []) :=
  parse_fenced_equals_bare [] (js "Here you go:\n") (js "\x7b\"a\":1\x7d") []
    (by decide) (by decide) (by decide) (by decide) (Or.inl (by decide))
